import Mathlib

/-!
Shallow embedding of the GenePhenExtract core (penetrance models, cohort
models, variant aggregation and normalization, extraction dispatcher,
PubMed text retrieval) together with theorems checking the specification
claims against the embedded code.

Conventions of the embedding:
* Python `int` is modelled as `Int`, Python `float` as `Rat`
  (all arithmetic the claims touch is exact in the source).
* Python `Optional[T]` is `Option T`; Python truthiness of the values the
  code actually branches on is spelled out (`none`, `some false`, `0`,
  `""` are falsy).
* Python `dict` preserving insertion order is an association list.
* Fallible calls return `Except`; a raised exception is an `Except.error`.
* Character classes of the `re` patterns in `variant_models.py` are the
  ASCII classes the patterns name.
-/

/-- Python truthiness of an `Optional[str]`: `None` and `""` are falsy. -/
def optStrTruthy : Option String → Bool
  | none => false
  | some s => s ≠ ""

/-- Python truthiness of an `Optional[bool]`: only `True` is truthy. -/
def optBoolTruthy : Option Bool → Bool
  | none => false
  | some b => b

/-- Python truthiness of an `Optional[int]`: `None` and `0` are falsy. -/
def optIntTruthy : Option Int → Bool
  | none => false
  | some n => n ≠ 0

/-- Python truthiness of an `Optional[float]`: `None` and `0.0` are falsy. -/
def optRatTruthy : Option Rat → Bool
  | none => false
  | some q => q ≠ 0

/-- `models.PhenotypeObservation`: a phenotype mention for a variant carrier. -/
structure PhenotypeObservation where
  phenotype : String
  ontology_id : Option String := none
  onset_age : Option String := none
  notes : Option String := none
  deriving DecidableEq, Repr

/-- `penetrance_models.Individual`: one person with genotype and phenotype data. -/
structure Individual where
  individual_id : String
  pmid : String
  variant : Option String := none
  gene : Option String := none
  genotype : Option String := none
  affected : Option Bool := none
  phenotypes : List PhenotypeObservation := []
  age : Option Rat := none
  sex : Option String := none
  age_at_onset : Option Rat := none
  age_at_diagnosis : Option Rat := none
  relation : Option String := none
  family_id : Option String := none
  title : Option String := none
  journal : Option String := none
  publication_date : Option String := none
  confidence : Option Rat := none
  deriving DecidableEq, Repr

/-- `Individual.is_carrier`: genotype is one of the three carrier classes. -/
def Individual.is_carrier (i : Individual) : Bool :=
  i.genotype == some "heterozygous" || i.genotype == some "homozygous"
    || i.genotype == some "compound_heterozygous"

/-- `penetrance_models.FamilyStudy`: one paper's individual-level report. -/
structure FamilyStudy where
  pmid : String
  variant : String
  gene : String
  individuals : List Individual := []
  title : Option String := none
  journal : Option String := none
  publication_date : Option String := none
  study_type : Option String := none
  family_id : Option String := none
  n_families : Int := 1
  deriving DecidableEq, Repr

/-- `FamilyStudy.get_carriers`: all carriers, optionally filtered by genotype
(a falsy `genotype` argument applies no filter, as in the Python code). -/
def FamilyStudy.get_carriers (s : FamilyStudy) (genotype : Option String) :
    List Individual :=
  let carriers := s.individuals.filter Individual.is_carrier
  if optStrTruthy genotype then
    carriers.filter (fun c => c.genotype == genotype)
  else
    carriers

/-- `FamilyStudy.calculate_penetrance`: affected carriers / all carriers,
`none` when the carrier list is empty. -/
def FamilyStudy.calculate_penetrance (s : FamilyStudy)
    (phenotype genotype : Option String) : Option Rat :=
  let carriers := s.get_carriers genotype
  if carriers.isEmpty then
    none
  else
    let affected :=
      if optStrTruthy phenotype then
        carriers.filter (fun c =>
          optBoolTruthy c.affected
            && c.phenotypes.any (fun p => some p.phenotype == phenotype))
      else
        carriers.filter (fun c => c.affected == some true)
    some ((affected.length : Rat) / (carriers.length : Rat))

/-- `penetrance_models.VariantPenetranceDatabase`: penetrance data across studies. -/
structure VariantPenetranceDatabase where
  variant : String
  gene : String
  genotype_filter : Option String := none
  studies : List FamilyStudy := []
  deriving DecidableEq, Repr

/-- `VariantPenetranceDatabase.get_all_carriers`: carriers of every study,
through the database's genotype filter when that filter is truthy. -/
def VariantPenetranceDatabase.get_all_carriers
    (db : VariantPenetranceDatabase) : List Individual :=
  db.studies.flatMap (fun st =>
    if optStrTruthy db.genotype_filter then
      st.get_carriers db.genotype_filter
    else
      st.get_carriers none)

/-- `VariantPenetranceDatabase.get_affected_carriers`. -/
def VariantPenetranceDatabase.get_affected_carriers
    (db : VariantPenetranceDatabase) (phenotype : Option String) :
    List Individual :=
  let carriers := db.get_all_carriers
  if optStrTruthy phenotype then
    carriers.filter (fun c =>
      optBoolTruthy c.affected
        && c.phenotypes.any (fun p => some p.phenotype == phenotype))
  else
    carriers.filter (fun c => c.affected == some true)

/-- `VariantPenetranceDatabase.calculate_overall_penetrance`. -/
def VariantPenetranceDatabase.calculate_overall_penetrance
    (db : VariantPenetranceDatabase) (phenotype : Option String) : Option Rat :=
  let all_carriers := db.get_all_carriers
  if all_carriers.isEmpty then
    none
  else
    some (((db.get_affected_carriers phenotype).length : Rat)
      / (all_carriers.length : Rat))

/-- C1: a family with one heterozygous `affected = unknown` individual and one
heterozygous `affected = false` individual has two carriers in the denominator
and none in the affected numerator, so `calculate_penetrance` returns `0/2 = 0`,
not the no-data value. -/
theorem penetrance_unknown_excluded_from_numerator
    (s : FamilyStudy) (i1 i2 : Individual)
    (hind : s.individuals = [i1, i2])
    (h1g : i1.genotype = some "heterozygous") (h1a : i1.affected = none)
    (h2g : i2.genotype = some "heterozygous") (h2a : i2.affected = some false) :
    (s.get_carriers none).length = 2
      ∧ s.calculate_penetrance none none = some 0 := by
  have hcar : s.get_carriers none = [i1, i2] := by
    simp [FamilyStudy.get_carriers, optStrTruthy, hind, Individual.is_carrier,
      h1g, h2g]
  refine ⟨by simp [hcar], ?_⟩
  simp [FamilyStudy.calculate_penetrance, hcar, optStrTruthy, h1a, h2a]

/-- Witness for C1 at a concrete two-individual family. -/
theorem penetrance_unknown_excluded_from_numerator_witness :
    (FamilyStudy.get_carriers
        { pmid := "1", variant := "KCNH2 p.Ser906Leu", gene := "KCNH2",
          individuals :=
            [{ individual_id := "proband", pmid := "1",
               genotype := some "heterozygous", affected := none },
             { individual_id := "mother", pmid := "1",
               genotype := some "heterozygous", affected := some false }] }
        none).length = 2
      ∧ FamilyStudy.calculate_penetrance
        { pmid := "1", variant := "KCNH2 p.Ser906Leu", gene := "KCNH2",
          individuals :=
            [{ individual_id := "proband", pmid := "1",
               genotype := some "heterozygous", affected := none },
             { individual_id := "mother", pmid := "1",
               genotype := some "heterozygous", affected := some false }] }
        none none = some 0 :=
  penetrance_unknown_excluded_from_numerator _ _ _ rfl rfl rfl rfl rfl

/-- C7: both the family-level and the database-level penetrance computation
return the distinguished no-data value `none` (not `some 0`) when the
qualifying carrier set is empty. -/
theorem penetrance_empty_carriers_no_data
    (s : FamilyStudy) (ph g : Option String)
    (db : VariantPenetranceDatabase) (ph2 : Option String)
    (h1 : s.get_carriers g = [])
    (h2 : db.get_all_carriers = []) :
    s.calculate_penetrance ph g = none
      ∧ db.calculate_overall_penetrance ph2 = none
      ∧ s.calculate_penetrance ph g ≠ some 0 := by
  refine ⟨?_, ?_, ?_⟩
  · simp [FamilyStudy.calculate_penetrance, h1]
  · simp [VariantPenetranceDatabase.calculate_overall_penetrance, h2]
  · simp [FamilyStudy.calculate_penetrance, h1]

/-- Witness for C7 at a concrete empty study and empty database. -/
theorem penetrance_empty_carriers_no_data_witness :
    FamilyStudy.calculate_penetrance
        { pmid := "9", variant := "V", gene := "G", individuals := [] }
        none none = none
      ∧ VariantPenetranceDatabase.calculate_overall_penetrance
        { variant := "V", gene := "G", studies := [] } none = none
      ∧ FamilyStudy.calculate_penetrance
        { pmid := "9", variant := "V", gene := "G", individuals := [] }
        none none ≠ some 0 :=
  penetrance_empty_carriers_no_data _ none none _ none rfl rfl

/-- `cohort_models.PhenotypeCount`: count of carriers with one phenotype. -/
structure PhenotypeCount where
  phenotype : String
  affected_count : Int
  notes : Option String := none
  deriving DecidableEq, Repr

/-- `PhenotypeCount.get_unaffected_count`: derived as total minus affected. -/
def PhenotypeCount.get_unaffected_count (pc : PhenotypeCount)
    (total_carriers : Int) : Int :=
  total_carriers - pc.affected_count

/-- `cohort_models.CohortData`: one paper's aggregate-count report. -/
structure CohortData where
  pmid : String
  gene : String
  genotype : String
  total_carriers : Int
  phenotype_counts : List PhenotypeCount := []
  variant : Option String := none
  population : Option String := none
  notes : Option String := none
  deriving DecidableEq, Repr

/-- First `affected_count` whose phenotype equals `ph`, else `0`
(the `for`/`return` loop of `CohortData.get_affected_count`). -/
def findAffectedCount (ph : String) : List PhenotypeCount → Int
  | [] => 0
  | pc :: rest => if pc.phenotype = ph then pc.affected_count
      else findAffectedCount ph rest

/-- `CohortData.get_affected_count`: count for one phenotype, or the sum over
all phenotype entries when the argument is falsy. -/
def CohortData.get_affected_count (c : CohortData)
    (phenotype : Option String) : Int :=
  match phenotype with
  | some ph =>
      if ph = "" then (c.phenotype_counts.map PhenotypeCount.affected_count).sum
      else findAffectedCount ph c.phenotype_counts
  | none => (c.phenotype_counts.map PhenotypeCount.affected_count).sum

/-- `CohortData.get_unaffected_count`: total carriers minus the affected count. -/
def CohortData.get_unaffected_count (c : CohortData)
    (phenotype : Option String) : Int :=
  match phenotype with
  | some ph =>
      if ph = "" then c.total_carriers - c.get_affected_count none
      else c.total_carriers - c.get_affected_count (some ph)
  | none => c.total_carriers - c.get_affected_count none

/-- `CohortData.calculate_frequency`: affected over total, `0` when the cohort
has no carriers. -/
def CohortData.calculate_frequency (c : CohortData) (phenotype : String) : Rat :=
  if c.total_carriers = 0 then 0
  else (c.get_affected_count (some phenotype) : Rat) / (c.total_carriers : Rat)

/-- Case-insensitive substring test, Python `a.lower() in b.lower()`. -/
def lowerInfix (a b : String) : Bool :=
  decide ((a.data.map Char.toLower) <:+: (b.data.map Char.toLower))

/-- `cohort_models.GeneticCohortDatabase`: cohorts of a single gene. -/
structure GeneticCohortDatabase where
  gene : String
  cohorts : List CohortData := []
  deriving DecidableEq, Repr

/-- The genotype/variant filter chain shared by the aggregate queries of
`GeneticCohortDatabase` (truthy genotype: equality; truthy variant:
case-insensitive substring on cohorts with a truthy variant field). -/
def GeneticCohortDatabase.filteredCohorts (db : GeneticCohortDatabase)
    (genotype variant : Option String) : List CohortData :=
  let cohorts := db.cohorts
  let cohorts :=
    if optStrTruthy genotype then
      cohorts.filter (fun c => c.genotype == genotype.getD "")
    else cohorts
  if optStrTruthy variant then
    cohorts.filter (fun c =>
      optStrTruthy c.variant && lowerInfix (variant.getD "") (c.variant.getD ""))
  else cohorts

/-- `GeneticCohortDatabase.get_aggregate_phenotype_counts`:
`(affected_sum, total_carrier_sum)` over the qualifying cohorts. -/
def GeneticCohortDatabase.get_aggregate_phenotype_counts
    (db : GeneticCohortDatabase) (phenotype : String)
    (genotype variant : Option String) : Int × Int :=
  let cohorts := db.filteredCohorts genotype variant
  ((cohorts.map (fun c => c.get_affected_count (some phenotype))).sum,
   (cohorts.map CohortData.total_carriers).sum)

/-- `GeneticCohortDatabase.calculate_aggregate_frequency`: `none` when the
qualifying total is zero, else the exact ratio. -/
def GeneticCohortDatabase.calculate_aggregate_frequency
    (db : GeneticCohortDatabase) (phenotype : String)
    (genotype variant : Option String) : Option Rat :=
  let counts := db.get_aggregate_phenotype_counts phenotype genotype variant
  if counts.2 = 0 then none
  else some ((counts.1 : Rat) / (counts.2 : Rat))

/-- A constructible cohort record violating `affected_count ≤ total_carriers`:
one carrier, five counted as affected for phenotype `"long QT"`. -/
def overflowCohort : CohortData :=
  { pmid := "77", gene := "KCNH2", genotype := "heterozygous",
    total_carriers := 1,
    phenotype_counts := [{ phenotype := "long QT", affected_count := 5 }] }

/-- C5 counterexample: nothing in the code enforces the claimed invariant
`affected_count ≤ total_carriers`; on `overflowCohort` the tally exceeds the
carrier total and the derived unaffected count is negative. -/
theorem cohort_invariant_counterexample :
    (⟨"long QT", 5, none⟩ : PhenotypeCount) ∈ overflowCohort.phenotype_counts
      ∧ ¬ ((5 : Int) ≤ overflowCohort.total_carriers)
      ∧ overflowCohort.get_unaffected_count (some "long QT") = -4 := by
  refine ⟨by simp [overflowCohort], by simp [overflowCohort], ?_⟩
  simp [overflowCohort, CohortData.get_unaffected_count,
    CohortData.get_affected_count, findAffectedCount]

/-- C5 amended: the unaffected count is always derived as
`total_carriers - affected_count` (never stored), both at the
`PhenotypeCount` level and through `CohortData.get_unaffected_count`; but the
bound `affected_count ≤ total_carriers` is not enforced, so the derived value
need not be non-negative. -/
theorem unaffected_count_always_derived :
    (∀ (pc : PhenotypeCount) (total : Int),
        pc.get_unaffected_count total = total - pc.affected_count)
      ∧ (∀ (c : CohortData) (ph : Option String),
        c.get_unaffected_count ph = c.total_carriers - c.get_affected_count ph) := by
  refine ⟨fun pc total => rfl, fun c ph => ?_⟩
  match ph with
  | none => rfl
  | some p =>
      by_cases hp : p = "" <;>
        simp [CohortData.get_unaffected_count, CohortData.get_affected_count, hp]

/-- C9: a single cohort with zero carriers reports frequency `0` (a number,
not a no-data marker), while the database-level aggregate over an empty
qualifying set reports the distinguished `none`. -/
theorem frequency_zero_vs_aggregate_no_data
    (c : CohortData) (ph : String)
    (db : GeneticCohortDatabase) (ph2 : String) (g v : Option String)
    (h1 : c.total_carriers = 0)
    (h2 : (db.get_aggregate_phenotype_counts ph2 g v).2 = 0) :
    c.calculate_frequency ph = 0
      ∧ db.calculate_aggregate_frequency ph2 g v = none := by
  constructor
  · simp [CohortData.calculate_frequency, h1]
  · simp [GeneticCohortDatabase.calculate_aggregate_frequency, h2]

/-- Witness for C9: an empty cohort and an empty database. -/
theorem frequency_zero_vs_aggregate_no_data_witness :
    CohortData.calculate_frequency
        { pmid := "5", gene := "G", genotype := "heterozygous",
          total_carriers := 0 } "long QT" = 0
      ∧ GeneticCohortDatabase.calculate_aggregate_frequency
        { gene := "G", cohorts := [] } "long QT" none none = none :=
  frequency_zero_vs_aggregate_no_data _ "long QT" _ "long QT" none none rfl rfl

/-- A cohort in which one carrier is tallied under two phenotypes. -/
def doubleCountCohort : CohortData :=
  { pmid := "88", gene := "KCNH2", genotype := "heterozygous",
    total_carriers := 1,
    phenotype_counts :=
      [{ phenotype := "long QT", affected_count := 1 },
       { phenotype := "syncope", affected_count := 1 }] }

/-- C10: with no phenotype argument, `get_affected_count` returns the sum of
`affected_count` over all phenotype entries, so on `doubleCountCohort` (one
carrier under two phenotypes) the sum exceeds `total_carriers` and
`get_unaffected_count` is negative. -/
theorem affected_count_sum_can_exceed_total :
    (∀ c : CohortData,
        c.get_affected_count none
          = (c.phenotype_counts.map PhenotypeCount.affected_count).sum)
      ∧ doubleCountCohort.get_affected_count none = 2
      ∧ doubleCountCohort.total_carriers < doubleCountCohort.get_affected_count none
      ∧ doubleCountCohort.get_unaffected_count none = -1 := by
  refine ⟨fun c => rfl, ?_, ?_, ?_⟩ <;>
    simp [doubleCountCohort, CohortData.get_affected_count,
      CohortData.get_unaffected_count]

/-- `variant_models.VariantPhenotypeAssociation`: one paper's link between a
variant, genotype and phenotype. -/
structure VariantPhenotypeAssociation where
  variant : String
  gene : String
  genotype : String
  phenotype : PhenotypeObservation
  pmid : String
  n_carriers : Option Int := none
  n_affected : Option Int := none
  age_at_onset : Option Rat := none
  severity : Option String := none
  confidence : Option Rat := none
  evidence_text : Option String := none
  title : Option String := none
  journal : Option String := none
  publication_date : Option String := none
  deriving DecidableEq, Repr

/-- Lookup in an insertion-ordered association list (Python `dict` access). -/
def dictGet (d : List (String × α)) (k : String) : Option α :=
  (d.find? (fun p => p.1 == k)).map (fun p => p.2)

/-- Key membership in an insertion-ordered association list. -/
def dictContains (d : List (String × α)) (k : String) : Bool :=
  d.any (fun p => p.1 == k)

/-- Write to an insertion-ordered association list: update the existing
binding in place, else append a new one (Python `dict` assignment). -/
def dictSet (d : List (String × α)) (k : String) (v : α) : List (String × α) :=
  if dictContains d k then
    d.map (fun p => if p.1 == k then (k, v) else p)
  else
    d ++ [(k, v)]

/-- `variant_models.PhenotypeSummary`: tallies for one phenotype across papers. -/
structure PhenotypeSummary where
  name : String
  count : Int := 0
  total_carriers : Int := 0
  total_affected : Int := 0
  pmids : List String := []
  severity_counts : List (String × Int) := []
  onset_ages : List Rat := []
  deriving DecidableEq, Repr

/-- `PhenotypeSummary.add_observation`: unconditional `count` increment,
pmid-list dedup, truthiness-guarded accumulation of the numeric tallies. -/
def PhenotypeSummary.add_observation (ps : PhenotypeSummary)
    (assoc : VariantPhenotypeAssociation) : PhenotypeSummary :=
  let ps := { ps with count := ps.count + 1 }
  let ps :=
    if ps.pmids.contains assoc.pmid then ps
    else { ps with pmids := ps.pmids ++ [assoc.pmid] }
  let ps :=
    if optIntTruthy assoc.n_carriers then
      { ps with total_carriers := ps.total_carriers + assoc.n_carriers.getD 0 }
    else ps
  let ps :=
    if optIntTruthy assoc.n_affected then
      { ps with total_affected := ps.total_affected + assoc.n_affected.getD 0 }
    else ps
  let ps :=
    if optStrTruthy assoc.severity then
      let sev := assoc.severity.getD ""
      let bumped := dictSet ps.severity_counts sev
        ((dictGet ps.severity_counts sev).getD 0 + 1)
      { ps with severity_counts := bumped }
    else ps
  if optRatTruthy assoc.age_at_onset then
    { ps with onset_ages := ps.onset_ages ++ [assoc.age_at_onset.getD 0] }
  else ps

/-- `variant_models.VariantSummary`: aggregation of one
`(normalized variant, genotype)` key across papers. -/
structure VariantSummary where
  variant : String
  gene : String
  genotype : String
  pmids : List String := []
  n_papers : Int := 0
  total_carriers : Int := 0
  total_affected : Int := 0
  phenotypes : List (String × PhenotypeSummary) := []
  clinvar_classification : Option String := none
  gnomad_frequency : Option Rat := none
  deriving DecidableEq, Repr

/-- `VariantSummary.add_association`: dedups only the pmid list / paper count;
carrier and affected sums accumulate on every call, and the per-phenotype
summary is updated in place. -/
def VariantSummary.add_association (s : VariantSummary)
    (assoc : VariantPhenotypeAssociation) : VariantSummary :=
  let s :=
    if s.pmids.contains assoc.pmid then s
    else { s with pmids := s.pmids ++ [assoc.pmid], n_papers := s.n_papers + 1 }
  let s :=
    if optIntTruthy assoc.n_carriers then
      { s with total_carriers := s.total_carriers + assoc.n_carriers.getD 0 }
    else s
  let s :=
    if optIntTruthy assoc.n_affected then
      { s with total_affected := s.total_affected + assoc.n_affected.getD 0 }
    else s
  let pheno_name := assoc.phenotype.phenotype
  let phenos :=
    if dictContains s.phenotypes pheno_name then s.phenotypes
    else s.phenotypes ++ [(pheno_name, { name := pheno_name })]
  let cur := (dictGet phenos pheno_name).getD { name := pheno_name }
  { s with phenotypes := dictSet phenos pheno_name (cur.add_observation assoc) }

/-- A concrete association carrying cohort counts. -/
def repeatAssoc : VariantPhenotypeAssociation :=
  { variant := "KCNH2 p.Ser906Leu", gene := "KCNH2",
    genotype := "heterozygous",
    phenotype := { phenotype := "long QT" }, pmid := "101",
    n_carriers := some 2, n_affected := some 1 }

/-- An empty summary for the same key. -/
def repeatSummary : VariantSummary :=
  { variant := "KCNH2 p.Ser906Leu", gene := "KCNH2",
    genotype := "heterozygous" }

/-- C4 counterexample: re-ingesting the same `(pmid, phenotype)` association is
not idempotent — the second `add_association` doubles the carrier and affected
sums and the per-phenotype report count. -/
theorem add_association_not_idempotent :
    ((repeatSummary.add_association repeatAssoc).add_association
        repeatAssoc).total_carriers = 4
      ∧ (repeatSummary.add_association repeatAssoc).total_carriers = 2
      ∧ ((dictGet ((repeatSummary.add_association repeatAssoc).add_association
          repeatAssoc).phenotypes "long QT").map PhenotypeSummary.count)
        = some 2
      ∧ ((dictGet (repeatSummary.add_association repeatAssoc).phenotypes
          "long QT").map PhenotypeSummary.count) = some 1 := by
  refine ⟨?_, ?_, ?_, ?_⟩ <;> decide

/-- C4 amended: only the source-paper identity is deduplicated — adding the
same association a second time leaves `pmids` and `n_papers` unchanged (and
likewise the per-phenotype pmid list), while the numeric tallies (phenotype
report count, carrier sum, affected sum, severity histogram, onset ages)
accumulate on every call. -/
theorem add_association_pmids_deduplicated
    (s : VariantSummary) (a : VariantPhenotypeAssociation) :
    ((s.add_association a).add_association a).pmids
        = (s.add_association a).pmids
      ∧ ((s.add_association a).add_association a).n_papers
        = (s.add_association a).n_papers := by
  have hproj : ∀ t : VariantSummary,
      (t.add_association a).pmids
          = (if t.pmids.contains a.pmid then t.pmids
             else t.pmids ++ [a.pmid])
        ∧ (t.add_association a).n_papers
          = (if t.pmids.contains a.pmid then t.n_papers
             else t.n_papers + 1) := by
    intro t
    unfold VariantSummary.add_association
    by_cases h : t.pmids.contains a.pmid = true <;>
      simp only [h, Bool.false_eq_true, if_true, if_false] <;>
      constructor <;> (split <;> split <;> rfl)
  have hmem : (s.add_association a).pmids.contains a.pmid = true := by
    rw [(hproj s).1]
    by_cases hm : a.pmid ∈ s.pmids <;>
      simp [List.contains, List.elem_eq_mem, hm]
  refine ⟨?_, ?_⟩
  · rw [(hproj (s.add_association a)).1, if_pos hmem]
  · rw [(hproj (s.add_association a)).2, if_pos hmem]

/-- `models.ExtractionResult`: the structured record the extraction pipeline
returns. Mirrors the dataclass fields of `models.py` (the wall-clock
`extracted_at` timestamp is omitted); note that there is **no** `notes`
field. -/
structure ExtractionResult where
  pmid : String
  variant : String
  carrier_status : Option String := none
  phenotypes : List PhenotypeObservation := []
  age : Option Rat := none
  sex : Option String := none
  treatment : Option String := none
  outcome : Option String := none
  title : Option String := none
  journal : Option String := none
  publication_date : Option String := none
  abstract : Option String := none
  deriving DecidableEq, Repr

/-- A raised Python exception in the extraction layer: calling the
`ExtractionResult` dataclass constructor with a keyword it does not declare
raises `TypeError`. -/
inductive ExtractionError where
  | typeErrorUnexpectedKwarg (kwarg : String)
  deriving DecidableEq, Repr

/-- Counter state of `extraction.MultiStageExtractor` (`self.stats`). -/
structure MultiStageStats where
  filtered : Nat := 0
  extracted : Nat := 0
  skipped : Nat := 0
  deriving DecidableEq, Repr

/-- `extraction.MultiStageExtractor`: threshold plus mutable counters. The
relevance filter and the expensive extractor are external capabilities, so
their answers enter `extract` as arguments. -/
structure MultiStageExtractor where
  min_confidence : Rat := 7 / 10
  stats : MultiStageStats := {}
  deriving DecidableEq, Repr

/-- `MultiStageExtractor.extract` for one item, given the Stage-1 classifier
answer `(is_relevant, confidence, reason)` and the record the Stage-2
extractor would produce. The gate is `not is_relevant or confidence <
min_confidence`. On the filtered branch the code increments `skipped` and
then evaluates `ExtractionResult(pmid=pmid, variant="", phenotypes=[],
notes=...)`; `models.ExtractionResult` has no `notes` parameter, so that
call raises `TypeError` instead of returning the audit record. -/
def MultiStageExtractor.extract (m : MultiStageExtractor)
    (filterAnswer : Bool × Rat × String) (stage2 : ExtractionResult)
    (pmid : String) : MultiStageExtractor × Except ExtractionError ExtractionResult :=
  let is_relevant := filterAnswer.1
  let confidence := filterAnswer.2.1
  if !is_relevant || confidence < m.min_confidence then
    ({ m with stats := { m.stats with skipped := m.stats.skipped + 1 } },
     Except.error (ExtractionError.typeErrorUnexpectedKwarg "notes"))
  else
    ({ m with stats := { m.stats with extracted := m.stats.extracted + 1 } },
     Except.ok stage2)

/-- C2 (code bug): on a filtered-out item the dispatcher does not return the
promised audit record — the `ExtractionResult(..., notes=...)` call raises
`TypeError` because the dataclass has no `notes` field. Evaluated at a
concrete rejected item. -/
theorem multistage_filtered_item_raises :
    (MultiStageExtractor.extract { min_confidence := 7 / 10, stats := {} }
        (false, 9 / 10, "review article, no variant data")
        { pmid := "42", variant := "KCNH2 p.Ser906Leu" } "42")
      = ({ min_confidence := 7 / 10,
           stats := { filtered := 0, extracted := 0, skipped := 1 } },
         Except.error (ExtractionError.typeErrorUnexpectedKwarg "notes")) := by
  rfl

/-- C3: with threshold `0.7`, an item classified `(relevant, 0.5)` is gated to
the filtered branch (the expensive extractor never runs and `skipped` is
incremented), an item classified `(relevant, 0.8)` goes to Stage 2 (the
result is exactly the expensive extractor's record), and after the
two-item batch `skipped = 1` and `extracted = 1`. -/
theorem multistage_gate_routing
    (stage2a stage2b : ExtractionResult) (ra rb : String) :
    (({ min_confidence := 7 / 10, stats := {} } : MultiStageExtractor).extract
          (true, 1 / 2, ra) stage2a "1").2
        = Except.error (ExtractionError.typeErrorUnexpectedKwarg "notes")
      ∧ ((({ min_confidence := 7 / 10, stats := {} } :
            MultiStageExtractor).extract (true, 1 / 2, ra) stage2a "1").1.extract
          (true, 4 / 5, rb) stage2b "2").2 = Except.ok stage2b
      ∧ ((({ min_confidence := 7 / 10, stats := {} } :
            MultiStageExtractor).extract (true, 1 / 2, ra) stage2a "1").1.extract
          (true, 4 / 5, rb) stage2b "2").1.stats.skipped = 1
      ∧ ((({ min_confidence := 7 / 10, stats := {} } :
            MultiStageExtractor).extract (true, 1 / 2, ra) stage2a "1").1.extract
          (true, 4 / 5, rb) stage2b "2").1.stats.extracted = 1 := by
  have hlt : ((1 : Rat) / 2 < 7 / 10) := by norm_num
  have hge : ¬ ((4 : Rat) / 5 < 7 / 10) := by norm_num
  have h1 : ({ min_confidence := 7 / 10, stats := {} } :
        MultiStageExtractor).extract (true, 1 / 2, ra) stage2a "1"
      = ({ min_confidence := 7 / 10,
           stats := { filtered := 0, extracted := 0, skipped := 1 } },
         Except.error (ExtractionError.typeErrorUnexpectedKwarg "notes")) := by
    simp only [MultiStageExtractor.extract, Bool.not_true, Bool.false_or,
      decide_eq_true_eq]
    rw [if_pos hlt]
  have h2 : ({ min_confidence := 7 / 10,
               stats := { filtered := 0, extracted := 0, skipped := 1 } } :
          MultiStageExtractor).extract (true, 4 / 5, rb) stage2b "2"
      = ({ min_confidence := 7 / 10,
           stats := { filtered := 0, extracted := 1, skipped := 1 } },
         Except.ok stage2b) := by
    simp only [MultiStageExtractor.extract, Bool.not_true, Bool.false_or,
      decide_eq_true_eq]
    rw [if_neg hge]
  refine ⟨?_, ?_, ?_, ?_⟩ <;> simp only [h1, h2]

/-- A raised `pubmed.PubMedError`. -/
inductive PubMedFailure where
  | noTextContent (pmid : String)
  | transport (msg : String)
  deriving DecidableEq, Repr

/-- The network-facing answers `pubmed.PubMedClient` receives, abstracted per
identifier: the PMC cross-reference lookup (`pmid_to_pmcid`, which may raise
on transport failure and returns `None` when no PMC article exists), the PMC
full-text assembly (`fetch_pmc_full_text`, which catches its own failures and
returns `None`), and the abstract fetch (`fetch_abstract`). -/
structure PubMedEnv where
  pmcidOf : String → Except PubMedFailure (Option String)
  pmcFullTextOf : String → Option String
  abstractOf : String → Except PubMedFailure (Option String)

/-- `PubMedClient.fetch_full_text`: resolve the PMCID; a falsy PMCID means
full text is absent (`None`, not an error); otherwise assemble from PMC. -/
def PubMedClient.fetch_full_text (env : PubMedEnv) (pmid : String) :
    Except PubMedFailure (Option String) :=
  match env.pmcidOf pmid with
  | Except.error e => Except.error e
  | Except.ok none => Except.ok none
  | Except.ok (some pmcid) =>
      if pmcid = "" then Except.ok none
      else Except.ok (env.pmcFullTextOf pmcid)

/-- `PubMedClient.fetch_text`: with `prefer_full_text` try full text first and
fall back to the abstract when it is absent or empty; raise `PubMedError`
only when neither is obtainable. -/
def PubMedClient.fetch_text (env : PubMedEnv) (pmid : String)
    (prefer_full_text : Bool) : Except PubMedFailure (String × String) :=
  let abstractStep : Except PubMedFailure (String × String) :=
    match env.abstractOf pmid with
    | Except.error e => Except.error e
    | Except.ok (some a) =>
        if a ≠ "" then Except.ok (a, "abstract")
        else Except.error (PubMedFailure.noTextContent pmid)
    | Except.ok none => Except.error (PubMedFailure.noTextContent pmid)
  if prefer_full_text then
    match PubMedClient.fetch_full_text env pmid with
    | Except.error e => Except.error e
    | Except.ok (some ft) =>
        if ft ≠ "" then Except.ok (ft, "full_text") else abstractStep
    | Except.ok none => abstractStep
  else abstractStep

/-- C8: when the id has no full-text cross-reference (`pmid_to_pmcid` answers
`None`) and the abstract is obtainable and non-empty,
`fetch_text(pmid, prefer_full_text := true)` returns the abstract with
provenance `"abstract"` and does not raise. -/
theorem fetch_text_falls_back_to_abstract
    (env : PubMedEnv) (pmid a : String)
    (h1 : env.pmcidOf pmid = Except.ok none)
    (h2 : env.abstractOf pmid = Except.ok (some a))
    (h3 : a ≠ "") :
    PubMedClient.fetch_text env pmid true = Except.ok (a, "abstract") := by
  simp [PubMedClient.fetch_text, PubMedClient.fetch_full_text, h1, h2, h3]

/-- Witness for C8 at a concrete environment with no PMC cross-reference. -/
theorem fetch_text_falls_back_to_abstract_witness :
    PubMedClient.fetch_text
      { pmcidOf := fun _ => Except.ok none,
        pmcFullTextOf := fun _ => none,
        abstractOf := fun _ => Except.ok (some "An abstract.") }
      "31999999" true = Except.ok ("An abstract.", "abstract") :=
  fetch_text_falls_back_to_abstract _ "31999999" "An abstract." rfl rfl
    (by decide)

/-- The whitespace class used by `str.strip` and the `\s` of the gene pattern
in `variant_models.parse_variant` (ASCII whitespace). -/
def isPySpace (c : Char) : Bool :=
  c = ' ' || c = '\t' || c = '\n' || c = '\r' ||
    c = Char.ofNat 11 || c = Char.ofNat 12

/-- `[A-Z]`. -/
def isUpperAZ (c : Char) : Bool := 'A' ≤ c && c ≤ 'Z'

/-- `[a-z]`. -/
def isLowerAZ (c : Char) : Bool := 'a' ≤ c && c ≤ 'z'

/-- `\d` (ASCII digits). -/
def isDigit09 (c : Char) : Bool := '0' ≤ c && c ≤ '9'

/-- `[A-Z]` under `re.IGNORECASE`: any ASCII letter. -/
def isLetterAZ (c : Char) : Bool := isUpperAZ c || isLowerAZ c

/-- `[A-Z0-9]`, the tail class of the gene pattern. -/
def isGeneTail (c : Char) : Bool := isUpperAZ c || isDigit09 c

/-- Python `str.strip()`: drop leading and trailing whitespace. -/
def stripList (l : List Char) : List Char :=
  ((l.dropWhile isPySpace).reverse.dropWhile isPySpace).reverse

/-- The anchored gene pattern `^([A-Z][A-Z0-9]+)\s+`: an uppercase letter, a
non-empty maximal `[A-Z0-9]` run, then at least one whitespace character.
Returns the captured gene token. -/
def geneOf : List Char → Option (List Char)
  | [] => none
  | c :: rest =>
      if isUpperAZ c = true then
        let tl := rest.takeWhile isGeneTail
        match rest.dropWhile isGeneTail with
        | [] => none
        | a :: _ =>
            if tl ≠ [] ∧ isPySpace a = true then some (c :: tl) else none
      else none

/-- The cDNA pattern `c\.(\d+[A-Z]>[A-Z])` (ignore-case) attempted at one
position; returns the captured group. -/
def cdnaAt : List Char → Option (List Char)
  | x :: y :: rest =>
      if (x = 'c' ∨ x = 'C') ∧ y = '.' then
        let ds := rest.takeWhile isDigit09
        match rest.dropWhile isDigit09 with
        | a :: gt :: b :: _ =>
            if ds ≠ [] ∧ isLetterAZ a = true ∧ gt = '>' ∧ isLetterAZ b = true then
              some (ds ++ [a, '>', b])
            else none
        | _ => none
      else none
  | _ => none

/-- `re.search`: try the position matcher on every suffix, leftmost first. -/
def searchO (f : List Char → Option (List Char)) : List Char → Option (List Char)
  | [] => f []
  | c :: rest =>
      match f (c :: rest) with
      | some r => some r
      | none => searchO f rest

/-- The body `[A-Z][a-z]{2}\d+[A-Z][a-z]{2}` of the three-letter protein
patterns, at one position; returns the body and the remainder. -/
def longSplit : List Char → Option (List Char × List Char)
  | u1 :: l1 :: l2 :: rest =>
      if isUpperAZ u1 = true ∧ isLowerAZ l1 = true ∧ isLowerAZ l2 = true then
        let ds := rest.takeWhile isDigit09
        match rest.dropWhile isDigit09 with
        | u2 :: m1 :: m2 :: rem =>
            if ds ≠ [] ∧ isUpperAZ u2 = true ∧ isLowerAZ m1 = true
                ∧ isLowerAZ m2 = true then
              some (u1 :: l1 :: l2 :: (ds ++ [u2, m1, m2]), rem)
            else none
        | _ => none
      else none
  | _ => none

/-- The body `[A-Z]\d+[A-Z]` of the single-letter protein patterns. -/
def shortSplit : List Char → Option (List Char × List Char)
  | [] => none
  | u1 :: rest =>
      if isUpperAZ u1 = true then
        let ds := rest.takeWhile isDigit09
        match rest.dropWhile isDigit09 with
        | u2 :: rem =>
            if ds ≠ [] ∧ isUpperAZ u2 = true then
              some (u1 :: (ds ++ [u2]), rem)
            else none
        | [] => none
      else none

/-- Pattern 1, `p\.\(([A-Z][a-z]{2}\d+[A-Z][a-z]{2})\)`, at one position. -/
def protLongParenAt : List Char → Option (List Char)
  | x :: y :: z :: rest =>
      if x = 'p' ∧ y = '.' ∧ z = '(' then
        match longSplit rest with
        | some br => if br.2.head? = some ')' then some br.1 else none
        | none => none
      else none
  | _ => none

/-- Pattern 2, `p\.([A-Z][a-z]{2}\d+[A-Z][a-z]{2})`, at one position. -/
def protLongAt : List Char → Option (List Char)
  | x :: y :: rest =>
      if x = 'p' ∧ y = '.' then (longSplit rest).map Prod.fst else none
  | _ => none

/-- Pattern 3, `p\.\(([A-Z]\d+[A-Z])\)`, at one position. -/
def protShortParenAt : List Char → Option (List Char)
  | x :: y :: z :: rest =>
      if x = 'p' ∧ y = '.' ∧ z = '(' then
        match shortSplit rest with
        | some br => if br.2.head? = some ')' then some br.1 else none
        | none => none
      else none
  | _ => none

/-- Pattern 4, `p\.([A-Z]\d+[A-Z])`, at one position. -/
def protShortAt : List Char → Option (List Char)
  | x :: y :: rest =>
      if x = 'p' ∧ y = '.' then (shortSplit rest).map Prod.fst else none
  | _ => none

/-- The protein-change extraction: the four patterns are searched over the
whole string in their fixed priority order; the first that matches anywhere
wins. -/
def proteinOf (s : List Char) : Option (List Char) :=
  match searchO protLongParenAt s with
  | some r => some r
  | none =>
      match searchO protLongAt s with
      | some r => some r
      | none =>
          match searchO protShortParenAt s with
          | some r => some r
          | none => searchO protShortAt s

/-- `variant_models.ParsedVariant` (with the canonical string always
materialised, as `parse_variant` does via `normalized or variant_string`). -/
structure ParsedVariant where
  raw_string : List Char
  gene : Option (List Char)
  cdna_change : Option (List Char)
  protein_change : Option (List Char)
  is_valid_hgvs : Bool
  normalized : List Char
  deriving DecidableEq, Repr

/-- The `" c." ++ group` segment the canonical form gains when the cDNA
pattern matched, else nothing. -/
def cdPartOf (s : List Char) : List Char :=
  match searchO cdnaAt s with
  | some d => ' ' :: 'c' :: '.' :: d
  | none => []

/-- The `" p." ++ group` segment the canonical form gains when a protein
pattern matched, else nothing. -/
def prPartOf (s : List Char) : List Char :=
  match proteinOf s with
  | some p => ' ' :: 'p' :: '.' :: p
  | none => []

/-- The canonical string built by `parse_variant`: gene, then `c.`-change,
then `p.`-change, space-joined; the stripped raw input when no gene parsed. -/
def normalizedOf (raw : List Char) : List Char :=
  let s := stripList raw
  match geneOf s with
  | none => s
  | some g => g ++ cdPartOf s ++ prPartOf s

/-- `variant_models.parse_variant`. -/
def parse_variant (variant_string : List Char) : ParsedVariant :=
  let s := stripList variant_string
  let gene := geneOf s
  let cdna := (searchO cdnaAt s).map (fun d => 'c' :: '.' :: d)
  let protein := (proteinOf s).map (fun p => 'p' :: '.' :: p)
  { raw_string := s, gene := gene, cdna_change := cdna,
    protein_change := protein,
    is_valid_hgvs := gene.isSome && (cdna.isSome || protein.isSome),
    normalized := normalizedOf variant_string }

/-- `variant_models.normalize_variant`: the parsed canonical form, or the raw
input when that form is empty (Python's final `or`). -/
def normalize_variant (variant_string : List Char) : List Char :=
  let parsed := parse_variant variant_string
  if parsed.normalized.isEmpty then variant_string else parsed.normalized

lemma not_space_of_upper {c : Char} (h : isUpperAZ c = true) :
    isPySpace c = false := by
  cases hs : isPySpace c
  · rfl
  · simp only [isPySpace, Bool.or_eq_true, decide_eq_true_eq] at hs
    rcases hs with ((((rfl | rfl) | rfl) | rfl) | rfl) | rfl <;> exact absurd h (by decide)

lemma not_space_of_lower {c : Char} (h : isLowerAZ c = true) :
    isPySpace c = false := by
  cases hs : isPySpace c
  · rfl
  · simp only [isPySpace, Bool.or_eq_true, decide_eq_true_eq] at hs
    rcases hs with ((((rfl | rfl) | rfl) | rfl) | rfl) | rfl <;> exact absurd h (by decide)

lemma not_space_of_digit {c : Char} (h : isDigit09 c = true) :
    isPySpace c = false := by
  cases hs : isPySpace c
  · rfl
  · simp only [isPySpace, Bool.or_eq_true, decide_eq_true_eq] at hs
    rcases hs with ((((rfl | rfl) | rfl) | rfl) | rfl) | rfl <;> exact absurd h (by decide)

lemma not_space_of_geneTail {c : Char} (h : isGeneTail c = true) :
    isPySpace c = false := by
  rcases Bool.or_eq_true .. |>.mp h with h | h
  exacts [not_space_of_upper h, not_space_of_digit h]

lemma not_space_of_letter {c : Char} (h : isLetterAZ c = true) :
    isPySpace c = false := by
  rcases Bool.or_eq_true .. |>.mp h with h | h
  exacts [not_space_of_upper h, not_space_of_lower h]

lemma upper_ne_dot {c : Char} (h : isUpperAZ c = true) : c ≠ '.' := by
  rintro rfl; exact absurd h (by decide)

lemma lower_ne_dot {c : Char} (h : isLowerAZ c = true) : c ≠ '.' := by
  rintro rfl; exact absurd h (by decide)

lemma digit_ne_dot {c : Char} (h : isDigit09 c = true) : c ≠ '.' := by
  rintro rfl; exact absurd h (by decide)

lemma geneTail_ne_dot {c : Char} (h : isGeneTail c = true) : c ≠ '.' := by
  rcases Bool.or_eq_true .. |>.mp h with h | h
  exacts [upper_ne_dot h, digit_ne_dot h]

lemma letter_ne_dot {c : Char} (h : isLetterAZ c = true) : c ≠ '.' := by
  rcases Bool.or_eq_true .. |>.mp h with h | h
  exacts [upper_ne_dot h, lower_ne_dot h]

lemma upper_ne_lparen {c : Char} (h : isUpperAZ c = true) : c ≠ '(' := by
  rintro rfl; exact absurd h (by decide)

lemma lower_ne_lparen {c : Char} (h : isLowerAZ c = true) : c ≠ '(' := by
  rintro rfl; exact absurd h (by decide)

lemma digit_ne_lparen {c : Char} (h : isDigit09 c = true) : c ≠ '(' := by
  rintro rfl; exact absurd h (by decide)

lemma geneTail_ne_lparen {c : Char} (h : isGeneTail c = true) : c ≠ '(' := by
  rcases Bool.or_eq_true .. |>.mp h with h | h
  exacts [upper_ne_lparen h, digit_ne_lparen h]

lemma letter_ne_lparen {c : Char} (h : isLetterAZ c = true) : c ≠ '(' := by
  rcases Bool.or_eq_true .. |>.mp h with h | h
  exacts [upper_ne_lparen h, lower_ne_lparen h]

lemma not_digit_of_upper {c : Char} (h : isUpperAZ c = true) :
    isDigit09 c = false := by
  cases hd : isDigit09 c
  · rfl
  · exfalso
    have h1 := (Bool.and_eq_true .. |>.mp h).1
    have h2 := (Bool.and_eq_true .. |>.mp hd).2
    simp only [decide_eq_true_eq] at h1 h2
    exact absurd (le_trans h1 h2) (by decide)

lemma not_digit_of_lower {c : Char} (h : isLowerAZ c = true) :
    isDigit09 c = false := by
  cases hd : isDigit09 c
  · rfl
  · exfalso
    have h1 := (Bool.and_eq_true .. |>.mp h).1
    have h2 := (Bool.and_eq_true .. |>.mp hd).2
    simp only [decide_eq_true_eq] at h1 h2
    exact absurd (le_trans h1 h2) (by decide)

lemma not_digit_of_letter {c : Char} (h : isLetterAZ c = true) :
    isDigit09 c = false := by
  rcases Bool.or_eq_true .. |>.mp h with h | h
  exacts [not_digit_of_upper h, not_digit_of_lower h]

lemma not_lower_of_digit {c : Char} (h : isDigit09 c = true) :
    isLowerAZ c = false := by
  cases hd : isLowerAZ c
  · rfl
  · exact absurd (not_digit_of_lower hd) (by simp [h])

lemma takeWhile_append_all (p : Char → Bool) (l1 l2 : List Char)
    (h : ∀ c ∈ l1, p c = true) :
    (l1 ++ l2).takeWhile p = l1 ++ l2.takeWhile p := by
  induction l1 with
  | nil => rfl
  | cons a t ih =>
      simp only [List.cons_append, List.takeWhile_cons, h a (by simp),
        if_true, List.cons.injEq, true_and]
      exact ih (fun c hc => h c (by simp [hc]))

lemma dropWhile_append_all (p : Char → Bool) (l1 l2 : List Char)
    (h : ∀ c ∈ l1, p c = true) :
    (l1 ++ l2).dropWhile p = l2.dropWhile p := by
  induction l1 with
  | nil => rfl
  | cons a t ih =>
      simp only [List.cons_append, List.dropWhile_cons, h a (by simp), if_true]
      exact ih (fun c hc => h c (by simp [hc]))

lemma takeWhile_all (p : Char → Bool) (l : List Char)
    (h : ∀ c ∈ l, p c = true) : l.takeWhile p = l := by
  have := takeWhile_append_all p l [] h
  simpa using this

lemma dropWhile_all (p : Char → Bool) (l : List Char)
    (h : ∀ c ∈ l, p c = true) : l.dropWhile p = [] := by
  have := dropWhile_append_all p l [] h
  simpa using this

lemma dropWhile_eq_self_of_head (p : Char → Bool) (l : List Char)
    (h : ∀ c, l.head? = some c → p c = false) : l.dropWhile p = l := by
  cases l with
  | nil => rfl
  | cons a t => simp [List.dropWhile_cons, h a rfl]

lemma head_dropWhile_false (p : Char → Bool) (l : List Char) :
    ∀ c, (l.dropWhile p).head? = some c → p c = false := by
  induction l with
  | nil => simp
  | cons a t ih =>
      intro c hc
      simp only [List.dropWhile_cons] at hc
      by_cases hpa : p a = true
      · rw [if_pos hpa] at hc
        exact ih c hc
      · rw [if_neg hpa] at hc
        simp only [List.head?_cons, Option.some.injEq] at hc
        subst hc
        exact Bool.not_eq_true _ |>.mp hpa

lemma getLast_dropWhile (p : Char → Bool) (l : List Char)
    (h : l.dropWhile p ≠ []) : (l.dropWhile p).getLast? = l.getLast? := by
  induction l with
  | nil => simp at h
  | cons a t ih =>
      simp only [List.dropWhile_cons] at h ⊢
      by_cases hpa : p a = true
      · rw [if_pos hpa] at h ⊢
        rw [ih h]
        have ht : t ≠ [] := by
          rintro rfl
          simp at h
        cases t with
        | nil => exact absurd rfl ht
        | cons b t' => rw [List.getLast?_cons_cons]
      · rw [if_neg hpa]

/-- A list whose first and last characters are not whitespace. -/
def TrimmedP (l : List Char) : Prop :=
  (∀ c, l.head? = some c → isPySpace c = false)
    ∧ (∀ c, l.getLast? = some c → isPySpace c = false)

lemma stripList_of_trimmed (l : List Char) (h : TrimmedP l) :
    stripList l = l := by
  unfold stripList
  rw [dropWhile_eq_self_of_head _ _ h.1]
  rw [dropWhile_eq_self_of_head _ _ (fun c hc => h.2 c (by rwa [List.head?_reverse] at hc))]
  exact List.reverse_reverse l

lemma trimmed_stripList (l : List Char) : TrimmedP (stripList l) := by
  constructor
  · intro c hc
    unfold stripList at hc
    rw [List.head?_reverse] at hc
    have hne : (l.dropWhile isPySpace).reverse.dropWhile isPySpace ≠ [] := by
      rintro h0
      rw [h0] at hc
      simp at hc
    rw [getLast_dropWhile _ _ hne, List.getLast?_reverse] at hc
    exact head_dropWhile_false _ _ c hc
  · intro c hc
    unfold stripList at hc
    rw [List.getLast?_reverse] at hc
    exact head_dropWhile_false _ _ c hc

lemma stripList_idem (l : List Char) : stripList (stripList l) = stripList l :=
  stripList_of_trimmed _ (trimmed_stripList l)

lemma searchO_eq_none_of (f : List Char → Option (List Char)) (l : List Char)
    (h : ∀ t, t <:+ l → f t = none) : searchO f l = none := by
  induction l with
  | nil => exact h [] List.nil_suffix
  | cons a t ih =>
      unfold searchO
      rw [h (a :: t) (List.suffix_refl _)]
      exact ih (fun t' ht' => h t' (ht'.trans (List.suffix_cons a t)))

lemma searchO_append_of (f : List Char → Option (List Char)) (l1 l2 : List Char)
    (h : ∀ t, t <:+ l1 → t ≠ [] → f (t ++ l2) = none) :
    searchO f (l1 ++ l2) = searchO f l2 := by
  induction l1 with
  | nil => rfl
  | cons a t ih =>
      have h0 : f ((a :: t) ++ l2) = none :=
        h (a :: t) (List.suffix_refl _) (by simp)
      have hstep : searchO f (a :: (t ++ l2)) = searchO f (t ++ l2) := by
        simp only [searchO]
        rw [show f (a :: (t ++ l2)) = none from h0]
      rw [List.cons_append, hstep]
      exact ih (fun t' ht' hne => h t' (ht'.trans (List.suffix_cons a t)) hne)

lemma suffix_append_cases {t l1 l2 : List Char} (h : t <:+ l1 ++ l2) :
    t <:+ l2 ∨ ∃ t1, t1 <:+ l1 ∧ t1 ≠ [] ∧ t = t1 ++ l2 := by
  induction l1 with
  | nil => exact Or.inl (by simpa using h)
  | cons a l1' ih =>
      rw [List.cons_append, List.suffix_cons_iff] at h
      rcases h with rfl | h
      · exact Or.inr ⟨a :: l1', List.suffix_refl _, by simp, by simp⟩
      · rcases ih h with h' | ⟨t1, ht1, hne, rfl⟩
        · exact Or.inl h'
        · exact Or.inr ⟨t1, ht1.trans (List.suffix_cons a l1'), hne, rfl⟩

lemma getLast?_of_suffix_singleton {a : Char} {l : List Char}
    (h : [a] <:+ l) : l.getLast? = some a := by
  obtain ⟨pre, rfl⟩ := h
  exact List.getLast?_concat pre

/-- No two consecutive characters of `l` form a `bad` pair (used to show a
position matcher finds no match anywhere in a region). -/
def NoPair (bad : Char → Char → Prop) (l : List Char) : Prop :=
  ∀ x y r, (x :: y :: r) <:+ l → ¬ bad x y

lemma noPair_nil {bad : Char → Char → Prop} : NoPair bad [] := by
  intro x y r h
  simp [List.suffix_nil] at h

lemma noPair_singleton {bad : Char → Char → Prop} {a : Char} :
    NoPair bad [a] := by
  intro x y r h
  have := h.length_le
  simp at this

lemma noPair_cons {bad : Char → Char → Prop} {a : Char} {l : List Char}
    (hhead : ∀ y, l.head? = some y → ¬ bad a y) (h : NoPair bad l) :
    NoPair bad (a :: l) := by
  intro x y r hr
  rw [List.suffix_cons_iff] at hr
  rcases hr with heq | hr
  · injection heq with e1 e2
    subst e1
    subst e2
    exact hhead y rfl
  · exact h x y r hr

lemma noPair_of_no_snd {bad : Char → Char → Prop} {l : List Char}
    (h : ∀ y ∈ l, ∀ x, ¬ bad x y) : NoPair bad l := by
  intro x y r hr
  exact h y (hr.subset (by simp)) x

lemma noPair_append {bad : Char → Char → Prop} {l1 l2 : List Char}
    (h1 : NoPair bad l1) (h2 : NoPair bad l2)
    (hb : ∀ x, l1.getLast? = some x → ∀ y, l2.head? = some y → ¬ bad x y) :
    NoPair bad (l1 ++ l2) := by
  intro x y r hr
  rcases suffix_append_cases hr with h | ⟨t1, ht1, hne, heq⟩
  · exact h2 x y r h
  · cases t1 with
    | nil => exact absurd rfl hne
    | cons a t1' =>
        cases t1' with
        | nil =>
            simp only [List.cons_append, List.nil_append, List.cons.injEq] at heq
            obtain ⟨rfl, h2'⟩ := heq
            exact hb x (getLast?_of_suffix_singleton ht1) y (by rw [← h2']; rfl)
        | cons b t1'' =>
            simp only [List.cons_append, List.cons.injEq] at heq
            obtain ⟨rfl, rfl, -⟩ := heq
            exact h1 x y t1'' ht1

lemma searchO_none_of_noPair (f : List Char → Option (List Char))
    (bad : Char → Char → Prop)
    (hf0 : f [] = none) (hf1 : ∀ x, f [x] = none)
    (hf2 : ∀ x y r, ¬ bad x y → f (x :: y :: r) = none)
    (l : List Char) (hl : NoPair bad l) : searchO f l = none := by
  apply searchO_eq_none_of
  intro t ht
  match t with
  | [] => exact hf0
  | [x] => exact hf1 x
  | x :: y :: r => exact hf2 x y r (hl x y r ht)

lemma searchO_append_of_noPair (f : List Char → Option (List Char))
    (bad : Char → Char → Prop) (l1 l2 : List Char)
    (hf2 : ∀ x y r, ¬ bad x y → f (x :: y :: r) = none)
    (hp : NoPair bad l1)
    (hb : ∀ x, l1.getLast? = some x → ∀ y, l2.head? = some y → ¬ bad x y)
    (hl2 : l2 ≠ []) :
    searchO f (l1 ++ l2) = searchO f l2 := by
  apply searchO_append_of
  intro t ht hne
  match t with
  | [x] =>
      obtain ⟨y, l2', rfl⟩ : ∃ y l2', l2 = y :: l2' := by
        cases l2 with
        | nil => exact absurd rfl hl2
        | cons y l2' => exact ⟨y, l2', rfl⟩
      exact hf2 x y l2' (hb x (getLast?_of_suffix_singleton ht) y rfl)
  | x :: y :: r =>
      have hnb : ¬ bad x y := hp x y r ht
      show f (x :: y :: (r ++ l2)) = none
      exact hf2 x y (r ++ l2) hnb

/-- A position where the ignore-case `c\.` prefix of the cDNA pattern fires. -/
def badCdna (x y : Char) : Prop := (x = 'c' ∨ x = 'C') ∧ y = '.'

/-- A position where the `p\.` prefix of the protein patterns fires. -/
def badPDot (x y : Char) : Prop := x = 'p' ∧ y = '.'

lemma geneOf_concrete (u a : Char) (tl rest : List Char)
    (hu : isUpperAZ u = true) (htl : ∀ c ∈ tl, isGeneTail c = true)
    (hne : tl ≠ []) (hga : isGeneTail a = false) (hsa : isPySpace a = true) :
    geneOf (u :: (tl ++ a :: rest)) = some (u :: tl) := by
  simp only [geneOf, hu, if_true]
  rw [takeWhile_append_all _ _ _ htl, dropWhile_append_all _ _ _ htl]
  simp [List.takeWhile_cons, List.dropWhile_cons, hga, hne, hsa]

lemma geneOf_all_tail (u : Char) (tl : List Char)
    (htl : ∀ c ∈ tl, isGeneTail c = true) : geneOf (u :: tl) = none := by
  cases hu : isUpperAZ u <;>
    simp [geneOf, hu, dropWhile_all _ _ htl]


lemma cdnaAt_concrete (x : Char) (hx : x = 'c' ∨ x = 'C') (ds : List Char)
    (a b : Char) (rest : List Char)
    (hds : ∀ c ∈ ds, isDigit09 c = true) (hne : ds ≠ [])
    (ha : isLetterAZ a = true) (hb : isLetterAZ b = true) :
    cdnaAt (x :: '.' :: (ds ++ a :: '>' :: b :: rest))
      = some (ds ++ [a, '>', b]) := by
  simp only [cdnaAt]
  rw [if_pos ⟨hx, trivial⟩]
  rw [takeWhile_append_all _ _ _ hds, dropWhile_append_all _ _ _ hds]
  simp [List.takeWhile_cons, List.dropWhile_cons, not_digit_of_letter ha,
    hne, ha, hb]

lemma cdnaAt_not_bad (x y : Char) (r : List Char) (h : ¬ badCdna x y) :
    cdnaAt (x :: y :: r) = none := by
  simp only [cdnaAt]
  rw [if_neg (show ¬ ((x = 'c' ∨ x = 'C') ∧ y = '.') from h)]

lemma longSplit_concrete (u1 l1 l2 u2 m1 m2 : Char) (ds rem : List Char)
    (h1 : isUpperAZ u1 = true) (h2 : isLowerAZ l1 = true)
    (h3 : isLowerAZ l2 = true)
    (hds : ∀ c ∈ ds, isDigit09 c = true) (hne : ds ≠ [])
    (h4 : isUpperAZ u2 = true) (h5 : isLowerAZ m1 = true)
    (h6 : isLowerAZ m2 = true) :
    longSplit (u1 :: l1 :: l2 :: (ds ++ u2 :: m1 :: m2 :: rem))
      = some (u1 :: l1 :: l2 :: (ds ++ [u2, m1, m2]), rem) := by
  simp only [longSplit]
  rw [if_pos ⟨h1, h2, h3⟩]
  rw [takeWhile_append_all _ _ _ hds, dropWhile_append_all _ _ _ hds]
  simp [List.takeWhile_cons, List.dropWhile_cons, not_digit_of_upper h4,
    hne, h4, h5, h6]

lemma longSplit_none_second_digit (u1 d0 : Char) (r : List Char)
    (hd : isDigit09 d0 = true) : longSplit (u1 :: d0 :: r) = none := by
  cases r with
  | nil => rfl
  | cons z r' =>
      simp only [longSplit]
      rw [if_neg]
      rintro ⟨-, hl, -⟩
      rw [not_lower_of_digit hd] at hl
      exact Bool.false_ne_true hl

lemma shortSplit_concrete (u1 u2 : Char) (ds rem : List Char)
    (h1 : isUpperAZ u1 = true)
    (hds : ∀ c ∈ ds, isDigit09 c = true) (hne : ds ≠ [])
    (h2 : isUpperAZ u2 = true) :
    shortSplit (u1 :: (ds ++ u2 :: rem)) = some (u1 :: (ds ++ [u2]), rem) := by
  simp only [shortSplit]
  rw [if_pos h1]
  rw [takeWhile_append_all _ _ _ hds, dropWhile_append_all _ _ _ hds]
  simp [List.takeWhile_cons, List.dropWhile_cons, not_digit_of_upper h2,
    hne, h2]

lemma protLongAt_not_bad (x y : Char) (r : List Char) (h : ¬ badPDot x y) :
    protLongAt (x :: y :: r) = none := by
  simp only [protLongAt]
  rw [if_neg (show ¬ (x = 'p' ∧ y = '.') from h)]

lemma protShortAt_not_bad (x y : Char) (r : List Char) (h : ¬ badPDot x y) :
    protShortAt (x :: y :: r) = none := by
  simp only [protShortAt]
  rw [if_neg (show ¬ (x = 'p' ∧ y = '.') from h)]

lemma protLongParenAt_not_bad (x y : Char) (r : List Char) (h : ¬ badPDot x y) :
    protLongParenAt (x :: y :: r) = none := by
  cases r with
  | nil => rfl
  | cons z r' =>
      simp only [protLongParenAt]
      rw [if_neg]
      rintro ⟨hx, hy, -⟩
      exact h ⟨hx, hy⟩

lemma protShortParenAt_not_bad (x y : Char) (r : List Char) (h : ¬ badPDot x y) :
    protShortParenAt (x :: y :: r) = none := by
  cases r with
  | nil => rfl
  | cons z r' =>
      simp only [protShortParenAt]
      rw [if_neg]
      rintro ⟨hx, hy, -⟩
      exact h ⟨hx, hy⟩

lemma protLongParenAt_none_no_paren (t : List Char)
    (h : ∀ c ∈ t, c ≠ '(') : protLongParenAt t = none := by
  match t with
  | [] => rfl
  | [x] => rfl
  | [x, y] => rfl
  | x :: y :: z :: r =>
      simp only [protLongParenAt]
      rw [if_neg]
      rintro ⟨-, -, rfl⟩
      exact h '(' (by simp) rfl

lemma protShortParenAt_none_no_paren (t : List Char)
    (h : ∀ c ∈ t, c ≠ '(') : protShortParenAt t = none := by
  match t with
  | [] => rfl
  | [x] => rfl
  | [x, y] => rfl
  | x :: y :: z :: r =>
      simp only [protShortParenAt]
      rw [if_neg]
      rintro ⟨-, -, rfl⟩
      exact h '(' (by simp) rfl

lemma searchO_longParen_none (l : List Char) (h : ∀ c ∈ l, c ≠ '(') :
    searchO protLongParenAt l = none :=
  searchO_eq_none_of _ _ (fun t ht =>
    protLongParenAt_none_no_paren t (fun c hc => h c (ht.subset hc)))

lemma searchO_shortParen_none (l : List Char) (h : ∀ c ∈ l, c ≠ '(') :
    searchO protShortParenAt l = none :=
  searchO_eq_none_of _ _ (fun t ht =>
    protShortParenAt_none_no_paren t (fun c hc => h c (ht.subset hc)))


lemma searchO_cons_some {f : List Char → Option (List Char)} {a : Char}
    {l v : List Char} (hf : f (a :: l) = some v) :
    searchO f (a :: l) = some v := by
  simp only [searchO]
  rw [hf]

lemma searchO_cons_none' {f : List Char → Option (List Char)} {a : Char}
    {l : List Char} (hf : f (a :: l) = none) :
    searchO f (a :: l) = searchO f l := by
  simp only [searchO]
  rw [hf]

lemma geneOf_shape {s g : List Char} (h : geneOf s = some g) :
    ∃ u tl, g = u :: tl ∧ isUpperAZ u = true
      ∧ (∀ c ∈ tl, isGeneTail c = true) ∧ tl ≠ [] := by
  match s with
  | [] => simp [geneOf] at h
  | c :: rest =>
      simp only [geneOf] at h
      by_cases hu : isUpperAZ c = true
      · rw [if_pos hu] at h
        rcases hdrop : rest.dropWhile isGeneTail with _ | ⟨a, r⟩ <;>
          rw [hdrop] at h
        · simp at h
        · simp only [ne_eq, Option.ite_none_right_eq_some,
            Option.some.injEq] at h
          obtain ⟨⟨hne, hsa⟩, hg⟩ := h
          exact ⟨c, rest.takeWhile isGeneTail, hg.symm, hu,
            fun x hx => List.mem_takeWhile_imp hx, hne⟩
      · rw [if_neg hu] at h
        simp at h

lemma searchO_shape {f : List Char → Option (List Char)} {s r : List Char}
    (h : searchO f s = some r) : ∃ t, t <:+ s ∧ f t = some r := by
  induction s with
  | nil => exact ⟨[], List.suffix_refl _, h⟩
  | cons a t ih =>
      rcases hf : f (a :: t) with _ | v
      · rw [searchO_cons_none' hf] at h
        rcases ih h with ⟨t', ht', hft⟩
        exact ⟨t', ht'.trans (List.suffix_cons a t), hft⟩
      · rw [searchO_cons_some hf] at h
        exact ⟨a :: t, List.suffix_refl _, by rw [hf, h]⟩

lemma cdnaAt_shape {t d : List Char} (h : cdnaAt t = some d) :
    ∃ ds a b, d = ds ++ [a, '>', b] ∧ ds ≠ []
      ∧ (∀ c ∈ ds, isDigit09 c = true)
      ∧ isLetterAZ a = true ∧ isLetterAZ b = true := by
  match t with
  | [] => simp [cdnaAt] at h
  | [x] => simp [cdnaAt] at h
  | x :: y :: rest =>
      simp only [cdnaAt] at h
      by_cases hc : (x = 'c' ∨ x = 'C') ∧ y = '.'
      · rw [if_pos hc] at h
        rcases hdrop : rest.dropWhile isDigit09 with _ | ⟨a, r1⟩ <;>
          rw [hdrop] at h
        · simp at h
        · rcases r1 with _ | ⟨gt, r2⟩
          · simp at h
          · rcases r2 with _ | ⟨b, r3⟩
            · simp at h
            · simp only [ne_eq, Option.ite_none_right_eq_some,
                Option.some.injEq] at h
              obtain ⟨⟨hne, ha, hgt, hb⟩, hg⟩ := h
              subst hgt
              exact ⟨rest.takeWhile isDigit09, a, b, hg.symm, hne,
                fun c hc => List.mem_takeWhile_imp hc, ha, hb⟩
      · rw [if_neg hc] at h
        simp at h

/-- The shape of a three-letter protein body. -/
def LongShape (p : List Char) : Prop :=
  ∃ u1 l1 l2 ds u2 m1 m2, p = u1 :: l1 :: l2 :: (ds ++ [u2, m1, m2])
    ∧ isUpperAZ u1 = true ∧ isLowerAZ l1 = true ∧ isLowerAZ l2 = true
    ∧ ds ≠ [] ∧ (∀ c ∈ ds, isDigit09 c = true)
    ∧ isUpperAZ u2 = true ∧ isLowerAZ m1 = true ∧ isLowerAZ m2 = true

/-- The shape of a single-letter protein body. -/
def ShortShape (p : List Char) : Prop :=
  ∃ u1 ds u2, p = u1 :: (ds ++ [u2]) ∧ isUpperAZ u1 = true ∧ ds ≠ []
    ∧ (∀ c ∈ ds, isDigit09 c = true) ∧ isUpperAZ u2 = true

lemma longSplit_shape {t : List Char} {br : List Char × List Char}
    (h : longSplit t = some br) : LongShape br.1 := by
  match t with
  | [] => simp [longSplit] at h
  | [x] => simp [longSplit] at h
  | [x, y] => simp [longSplit] at h
  | u1 :: l1 :: l2 :: rest =>
      simp only [longSplit] at h
      by_cases hc : isUpperAZ u1 = true ∧ isLowerAZ l1 = true
          ∧ isLowerAZ l2 = true
      · rw [if_pos hc] at h
        rcases hdrop : rest.dropWhile isDigit09 with _ | ⟨u2, r1⟩ <;>
          rw [hdrop] at h
        · simp at h
        · rcases r1 with _ | ⟨m1, r2⟩
          · simp at h
          · rcases r2 with _ | ⟨m2, r3⟩
            · simp at h
            · simp only [ne_eq, Option.ite_none_right_eq_some,
                Option.some.injEq] at h
              obtain ⟨⟨hne, h4, h5, h6⟩, hg⟩ := h
              refine ⟨u1, l1, l2, rest.takeWhile isDigit09, u2, m1, m2, ?_,
                hc.1, hc.2.1, hc.2.2, hne,
                fun c hcm => List.mem_takeWhile_imp hcm, h4, h5, h6⟩
              rw [← hg]
      · rw [if_neg hc] at h
        simp at h

lemma shortSplit_shape {t : List Char} {br : List Char × List Char}
    (h : shortSplit t = some br) : ShortShape br.1 := by
  match t with
  | [] => simp [shortSplit] at h
  | u1 :: rest =>
      simp only [shortSplit] at h
      by_cases hc : isUpperAZ u1 = true
      · rw [if_pos hc] at h
        rcases hdrop : rest.dropWhile isDigit09 with _ | ⟨u2, r1⟩ <;>
          rw [hdrop] at h
        · simp at h
        · simp only [ne_eq, Option.ite_none_right_eq_some,
            Option.some.injEq] at h
          obtain ⟨⟨hne, h2⟩, hg⟩ := h
          refine ⟨u1, rest.takeWhile isDigit09, u2, ?_, hc, hne,
            fun c hcm => List.mem_takeWhile_imp hcm, h2⟩
          rw [← hg]
      · rw [if_neg hc] at h
        simp at h

lemma protLongParenAt_shape {t p : List Char} (h : protLongParenAt t = some p) :
    LongShape p := by
  match t with
  | [] => simp [protLongParenAt] at h
  | [x] => simp [protLongParenAt] at h
  | [x, y] => simp [protLongParenAt] at h
  | x :: y :: z :: rest =>
      simp only [protLongParenAt] at h
      by_cases hc : x = 'p' ∧ y = '.' ∧ z = '('
      · rw [if_pos hc] at h
        rcases hsp : longSplit rest with _ | br <;> rw [hsp] at h
        · simp at h
        · simp only [Option.ite_none_right_eq_some, Option.some.injEq] at h
          exact h.2 ▸ longSplit_shape hsp
      · rw [if_neg hc] at h
        simp at h

lemma protLongAt_shape {t p : List Char} (h : protLongAt t = some p) :
    LongShape p := by
  match t with
  | [] => simp [protLongAt] at h
  | [x] => simp [protLongAt] at h
  | x :: y :: rest =>
      simp only [protLongAt] at h
      by_cases hc : x = 'p' ∧ y = '.'
      · rw [if_pos hc] at h
        rcases hsp : longSplit rest with _ | br <;> rw [hsp] at h
        · simp at h
        · simp at h
          exact h ▸ longSplit_shape hsp
      · rw [if_neg hc] at h
        simp at h

lemma protShortParenAt_shape {t p : List Char}
    (h : protShortParenAt t = some p) : ShortShape p := by
  match t with
  | [] => simp [protShortParenAt] at h
  | [x] => simp [protShortParenAt] at h
  | [x, y] => simp [protShortParenAt] at h
  | x :: y :: z :: rest =>
      simp only [protShortParenAt] at h
      by_cases hc : x = 'p' ∧ y = '.' ∧ z = '('
      · rw [if_pos hc] at h
        rcases hsp : shortSplit rest with _ | br <;> rw [hsp] at h
        · simp at h
        · simp only [Option.ite_none_right_eq_some, Option.some.injEq] at h
          exact h.2 ▸ shortSplit_shape hsp
      · rw [if_neg hc] at h
        simp at h

lemma protShortAt_shape {t p : List Char} (h : protShortAt t = some p) :
    ShortShape p := by
  match t with
  | [] => simp [protShortAt] at h
  | [x] => simp [protShortAt] at h
  | x :: y :: rest =>
      simp only [protShortAt] at h
      by_cases hc : x = 'p' ∧ y = '.'
      · rw [if_pos hc] at h
        rcases hsp : shortSplit rest with _ | br <;> rw [hsp] at h
        · simp at h
        · simp at h
          exact h ▸ shortSplit_shape hsp
      · rw [if_neg hc] at h
        simp at h

lemma proteinOf_eq1 {s p : List Char}
    (h1 : searchO protLongParenAt s = some p) : proteinOf s = some p := by
  unfold proteinOf
  rw [h1]

lemma proteinOf_eq2 {s p : List Char}
    (h1 : searchO protLongParenAt s = none)
    (h2 : searchO protLongAt s = some p) : proteinOf s = some p := by
  unfold proteinOf
  rw [h1, h2]

lemma proteinOf_eq3 {s p : List Char}
    (h1 : searchO protLongParenAt s = none)
    (h2 : searchO protLongAt s = none)
    (h3 : searchO protShortParenAt s = some p) : proteinOf s = some p := by
  unfold proteinOf
  rw [h1, h2, h3]

lemma proteinOf_eq4 {s : List Char}
    (h1 : searchO protLongParenAt s = none)
    (h2 : searchO protLongAt s = none)
    (h3 : searchO protShortParenAt s = none) :
    proteinOf s = searchO protShortAt s := by
  unfold proteinOf
  rw [h1, h2, h3]

lemma proteinOf_shape {s p : List Char} (h : proteinOf s = some p) :
    LongShape p ∨ ShortShape p := by
  rcases h1 : searchO protLongParenAt s with _ | v1
  · rcases h2 : searchO protLongAt s with _ | v2
    · rcases h3 : searchO protShortParenAt s with _ | v3
      · rw [proteinOf_eq4 h1 h2 h3] at h
        obtain ⟨t, -, hft⟩ := searchO_shape h
        exact Or.inr (protShortAt_shape hft)
      · rw [proteinOf_eq3 h1 h2 h3] at h
        injection h with h'
        obtain ⟨t, -, hft⟩ := searchO_shape h3
        exact Or.inr (h' ▸ protShortParenAt_shape hft)
    · rw [proteinOf_eq2 h1 h2] at h
      injection h with h'
      obtain ⟨t, -, hft⟩ := searchO_shape h2
      exact Or.inl (h' ▸ protLongAt_shape hft)
  · rw [proteinOf_eq1 h1] at h
    injection h with h'
    obtain ⟨t, -, hft⟩ := searchO_shape h1
    exact Or.inl (h' ▸ protLongParenAt_shape hft)

lemma head?_mem' {l : List Char} {a : Char} (h : l.head? = some a) : a ∈ l := by
  cases l with
  | nil => simp at h
  | cons x t =>
      simp only [List.head?_cons, Option.some.injEq] at h
      simp [← h]

lemma getLast?_mem' {l : List Char} {a : Char} (h : l.getLast? = some a) :
    a ∈ l := by
  induction l with
  | nil => simp at h
  | cons x t ih =>
      cases t with
      | nil =>
          simp only [List.getLast?_singleton, Option.some.injEq] at h
          simp [← h]
      | cons y t' =>
          rw [List.getLast?_cons_cons] at h
          exact List.mem_cons_of_mem x (ih h)

lemma getLast?_append_right {l1 l2 : List Char} (h : l2 ≠ []) :
    (l1 ++ l2).getLast? = l2.getLast? := by
  rcases List.eq_nil_or_concat l2 with rfl | ⟨l2', x, rfl⟩
  · exact absurd rfl h
  · rw [List.concat_eq_append, ← List.append_assoc, List.getLast?_concat,
      List.getLast?_concat]

lemma badCdna_ne_dot {x y : Char} (hy : y ≠ '.') : ¬ badCdna x y :=
  fun h => hy h.2

lemma badPDot_ne_dot {x y : Char} (hy : y ≠ '.') : ¬ badPDot x y :=
  fun h => hy h.2

lemma badPDot_ne_p {x y : Char} (hx : x ≠ 'p') : ¬ badPDot x y :=
  fun h => hx h.1

lemma noPair_no_dot {bad : Char → Char → Prop}
    (hbad : ∀ x y, y ≠ '.' → ¬ bad x y) {l : List Char}
    (h : ∀ c ∈ l, c ≠ '.') : NoPair bad l :=
  noPair_of_no_snd (fun y hy x => hbad x y (h y hy))

lemma gene_ne_dot {u : Char} {tl : List Char} (hu : isUpperAZ u = true)
    (htl : ∀ c ∈ tl, isGeneTail c = true) : ∀ c ∈ u :: tl, c ≠ '.' := by
  intro c hc
  rcases List.mem_cons.mp hc with rfl | hmem
  · exact upper_ne_dot hu
  · exact geneTail_ne_dot (htl c hmem)

lemma gene_ne_lparen {u : Char} {tl : List Char} (hu : isUpperAZ u = true)
    (htl : ∀ c ∈ tl, isGeneTail c = true) : ∀ c ∈ u :: tl, c ≠ '(' := by
  intro c hc
  rcases List.mem_cons.mp hc with rfl | hmem
  · exact upper_ne_lparen hu
  · exact geneTail_ne_lparen (htl c hmem)

lemma cdna_group_ne_dot {ds : List Char} {a b : Char}
    (hds : ∀ c ∈ ds, isDigit09 c = true)
    (ha : isLetterAZ a = true) (hb : isLetterAZ b = true) :
    ∀ c ∈ ds ++ [a, '>', b], c ≠ '.' := by
  intro c hc
  rcases List.mem_append.mp hc with hmem | hmem
  · exact digit_ne_dot (hds c hmem)
  · rcases List.mem_cons.mp hmem with rfl | hmem
    · exact letter_ne_dot ha
    · rcases List.mem_cons.mp hmem with rfl | hmem
      · decide
      · rcases List.mem_cons.mp hmem with rfl | hmem
        · exact letter_ne_dot hb
        · simp at hmem

lemma cdna_group_ne_lparen {ds : List Char} {a b : Char}
    (hds : ∀ c ∈ ds, isDigit09 c = true)
    (ha : isLetterAZ a = true) (hb : isLetterAZ b = true) :
    ∀ c ∈ ds ++ [a, '>', b], c ≠ '(' := by
  intro c hc
  rcases List.mem_append.mp hc with hmem | hmem
  · exact digit_ne_lparen (hds c hmem)
  · rcases List.mem_cons.mp hmem with rfl | hmem
    · exact letter_ne_lparen ha
    · rcases List.mem_cons.mp hmem with rfl | hmem
      · decide
      · rcases List.mem_cons.mp hmem with rfl | hmem
        · exact letter_ne_lparen hb
        · simp at hmem

lemma protShape_elem {p : List Char} (h : LongShape p ∨ ShortShape p) :
    ∀ c ∈ p, isUpperAZ c = true ∨ isLowerAZ c = true ∨ isDigit09 c = true := by
  intro c hc
  rcases h with ⟨u1, l1, l2, ds, u2, m1, m2, rfl, h1, h2, h3, -, hds, h4, h5, h6⟩
      | ⟨u1, ds, u2, rfl, h1, -, hds, h2⟩
  · rcases List.mem_cons.mp hc with rfl | hc
    · exact Or.inl h1
    · rcases List.mem_cons.mp hc with rfl | hc
      · exact Or.inr (Or.inl h2)
      · rcases List.mem_cons.mp hc with rfl | hc
        · exact Or.inr (Or.inl h3)
        · rcases List.mem_append.mp hc with hc | hc
          · exact Or.inr (Or.inr (hds c hc))
          · rcases List.mem_cons.mp hc with rfl | hc
            · exact Or.inl h4
            · rcases List.mem_cons.mp hc with rfl | hc
              · exact Or.inr (Or.inl h5)
              · rcases List.mem_cons.mp hc with rfl | hc
                · exact Or.inr (Or.inl h6)
                · simp at hc
  · rcases List.mem_cons.mp hc with rfl | hc
    · exact Or.inl h1
    · rcases List.mem_append.mp hc with hc | hc
      · exact Or.inr (Or.inr (hds c hc))
      · rcases List.mem_cons.mp hc with rfl | hc
        · exact Or.inl h2
        · simp at hc

lemma protShape_ne_dot {p : List Char} (h : LongShape p ∨ ShortShape p) :
    ∀ c ∈ p, c ≠ '.' := by
  intro c hc
  rcases protShape_elem h c hc with hcl | hcl | hcl
  exacts [upper_ne_dot hcl, lower_ne_dot hcl, digit_ne_dot hcl]

lemma protShape_ne_lparen {p : List Char} (h : LongShape p ∨ ShortShape p) :
    ∀ c ∈ p, c ≠ '(' := by
  intro c hc
  rcases protShape_elem h c hc with hcl | hcl | hcl
  exacts [upper_ne_lparen hcl, lower_ne_lparen hcl, digit_ne_lparen hcl]

lemma protShape_ne_nil {p : List Char} (h : LongShape p ∨ ShortShape p) :
    p ≠ [] := by
  rcases h with ⟨u1, l1, l2, ds, u2, m1, m2, rfl, -⟩ | ⟨u1, ds, u2, rfl, -⟩ <;>
    simp

lemma protShape_head_upper {p : List Char} (h : LongShape p ∨ ShortShape p) :
    ∀ y, p.head? = some y → isUpperAZ y = true := by
  intro y hy
  rcases h with ⟨u1, l1, l2, ds, u2, m1, m2, rfl, h1, -⟩
      | ⟨u1, ds, u2, rfl, h1, -⟩ <;>
    · simp only [List.head?_cons, Option.some.injEq] at hy
      exact hy ▸ h1

lemma protShape_last {p : List Char} (h : LongShape p ∨ ShortShape p) :
    ∀ c, p.getLast? = some c → isPySpace c = false := by
  intro c hc
  rcases h with ⟨u1, l1, l2, ds, u2, m1, m2, rfl, -, -, -, -, -, -, -, h6⟩
      | ⟨u1, ds, u2, rfl, -, -, -, h2⟩
  · rw [show u1 :: l1 :: l2 :: (ds ++ [u2, m1, m2])
        = (u1 :: l1 :: l2 :: (ds ++ [u2, m1])) ++ [m2] by simp,
      List.getLast?_concat] at hc
    injection hc with hc
    exact hc ▸ not_space_of_lower h6
  · rw [show u1 :: (ds ++ [u2]) = (u1 :: ds) ++ [u2] by simp,
      List.getLast?_concat] at hc
    injection hc with hc
    exact hc ▸ not_space_of_upper h2

lemma trimmed_gene {u : Char} {tl : List Char} (hu : isUpperAZ u = true)
    (htl : ∀ c ∈ tl, isGeneTail c = true) : TrimmedP (u :: tl) := by
  constructor
  · intro c hc
    simp only [List.head?_cons, Option.some.injEq] at hc
    exact hc ▸ not_space_of_upper hu
  · intro c hc
    rcases List.mem_cons.mp (getLast?_mem' hc) with rfl | hmem
    · exact not_space_of_upper hu
    · exact not_space_of_geneTail (htl c hmem)

lemma normalizedOf_gene_none {raw : List Char}
    (h : geneOf (stripList raw) = none) : normalizedOf raw = stripList raw := by
  simp only [normalizedOf]
  rw [h]

lemma normalizedOf_gene_some {raw g : List Char}
    (h : geneOf (stripList raw) = some g) :
    normalizedOf raw = g ++ cdPartOf (stripList raw)
      ++ prPartOf (stripList raw) := by
  simp only [normalizedOf]
  rw [h]

lemma normalizedOf_fix_geneonly (u : Char) (tl : List Char)
    (hu : isUpperAZ u = true) (htl : ∀ c ∈ tl, isGeneTail c = true) :
    normalizedOf (u :: tl) = u :: tl := by
  have hs : stripList (u :: tl) = u :: tl :=
    stripList_of_trimmed _ (trimmed_gene hu htl)
  have hg : geneOf (stripList (u :: tl)) = none := by
    rw [hs]
    exact geneOf_all_tail u tl htl
  rw [normalizedOf_gene_none hg, hs]

lemma normalizedOf_fix_cd (u : Char) (tl ds : List Char) (a b : Char)
    (hu : isUpperAZ u = true) (htl : ∀ c ∈ tl, isGeneTail c = true)
    (htlne : tl ≠ []) (hds : ∀ c ∈ ds, isDigit09 c = true) (hdsne : ds ≠ [])
    (ha : isLetterAZ a = true) (hb : isLetterAZ b = true) :
    normalizedOf ((u :: tl) ++ (' ' :: 'c' :: '.' :: (ds ++ [a, '>', b])))
      = (u :: tl) ++ (' ' :: 'c' :: '.' :: (ds ++ [a, '>', b])) := by
  have hdelems : ∀ c ∈ ds ++ [a, '>', b], c ≠ '.' :=
    cdna_group_ne_dot hds ha hb
  have htrim : TrimmedP ((u :: tl) ++ (' ' :: 'c' :: '.' :: (ds ++ [a, '>', b]))) := by
    constructor
    · intro c hc
      simp only [List.cons_append, List.head?_cons, Option.some.injEq] at hc
      exact hc ▸ not_space_of_upper hu
    · intro c hc
      rw [getLast?_append_right (by simp),
        show (' ' :: 'c' :: '.' :: (ds ++ [a, '>', b]))
          = (' ' :: 'c' :: '.' :: (ds ++ [a, '>'])) ++ [b] by simp,
        List.getLast?_concat] at hc
      injection hc with hc
      exact hc ▸ not_space_of_letter hb
  have hstrip : stripList ((u :: tl) ++ (' ' :: 'c' :: '.' :: (ds ++ [a, '>', b])))
      = (u :: tl) ++ (' ' :: 'c' :: '.' :: (ds ++ [a, '>', b])) :=
    stripList_of_trimmed _ htrim
  have hgene : geneOf ((u :: tl) ++ (' ' :: 'c' :: '.' :: (ds ++ [a, '>', b])))
      = some (u :: tl) := by
    rw [show (u :: tl) ++ (' ' :: 'c' :: '.' :: (ds ++ [a, '>', b]))
        = u :: (tl ++ ' ' :: ('c' :: '.' :: (ds ++ [a, '>', b]))) by simp]
    exact geneOf_concrete u ' ' tl _ hu htl htlne (by decide) (by decide)
  have hnp_gene : NoPair badCdna (u :: tl) :=
    noPair_no_dot (fun x y hy => badCdna_ne_dot hy) (gene_ne_dot hu htl)
  have hl1 : NoPair badCdna ((u :: tl) ++ [' ']) := by
    refine noPair_append hnp_gene noPair_singleton ?_
    intro x hx y hy
    simp only [List.head?_cons, Option.some.injEq] at hy
    exact badCdna_ne_dot (by rw [← hy]; decide)
  have hcdout : searchO cdnaAt ((u :: tl) ++ (' ' :: 'c' :: '.' :: (ds ++ [a, '>', b])))
      = some (ds ++ [a, '>', b]) := by
    rw [show (u :: tl) ++ (' ' :: 'c' :: '.' :: (ds ++ [a, '>', b]))
        = ((u :: tl) ++ [' ']) ++ ('c' :: '.' :: (ds ++ a :: '>' :: b :: [])) by simp]
    rw [searchO_append_of_noPair _ badCdna _ _ cdnaAt_not_bad hl1 ?_ (by simp)]
    · exact searchO_cons_some
        (cdnaAt_concrete 'c' (Or.inl rfl) ds a b [] hds hdsne ha hb)
    · intro x hx y hy
      simp only [List.head?_cons, Option.some.injEq] at hy
      exact badCdna_ne_dot (by rw [← hy]; decide)
  have hout_ne_lparen : ∀ c ∈ (u :: tl) ++ (' ' :: 'c' :: '.' :: (ds ++ [a, '>', b])),
      c ≠ '(' := by
    intro c hc
    rcases List.mem_append.mp hc with hm | hm
    · exact gene_ne_lparen hu htl c hm
    · rcases List.mem_cons.mp hm with rfl | hm
      · decide
      · rcases List.mem_cons.mp hm with rfl | hm
        · decide
        · rcases List.mem_cons.mp hm with rfl | hm
          · decide
          · exact cdna_group_ne_lparen hds ha hb c hm
  have hnp_pdot : NoPair badPDot ((u :: tl) ++ (' ' :: 'c' :: '.' :: (ds ++ [a, '>', b]))) := by
    refine noPair_append
      (noPair_no_dot (fun x y hy => badPDot_ne_dot hy) (gene_ne_dot hu htl))
      ?_ ?_
    · refine noPair_cons ?_ (noPair_cons ?_ (noPair_cons ?_ ?_))
      · intro y hy
        simp only [List.head?_cons, Option.some.injEq] at hy
        exact badPDot_ne_dot (by rw [← hy]; decide)
      · intro y hy
        exact badPDot_ne_p (by decide)
      · intro y hy
        exact badPDot_ne_dot (hdelems y (head?_mem' hy))
      · exact noPair_no_dot (fun x y hy => badPDot_ne_dot hy) hdelems
    · intro x hx y hy
      simp only [List.head?_cons, Option.some.injEq] at hy
      exact badPDot_ne_dot (by rw [← hy]; decide)
  have hP1 := searchO_longParen_none _ hout_ne_lparen
  have hP3 := searchO_shortParen_none _ hout_ne_lparen
  have hP2 := searchO_none_of_noPair _ badPDot rfl (fun _ => rfl)
    protLongAt_not_bad _ hnp_pdot
  have hP4 := searchO_none_of_noPair _ badPDot rfl (fun _ => rfl)
    protShortAt_not_bad _ hnp_pdot
  have hprot : proteinOf ((u :: tl) ++ (' ' :: 'c' :: '.' :: (ds ++ [a, '>', b]))) = none := by
    rw [proteinOf_eq4 hP1 hP2 hP3]
    exact hP4
  rw [normalizedOf_gene_some (by rw [hstrip]; exact hgene), hstrip]
  simp only [cdPartOf, prPartOf]
  rw [hcdout, hprot]
  simp

lemma protLongAt_pos {p : List Char} (h : LongShape p) :
    protLongAt ('p' :: '.' :: p) = some p := by
  obtain ⟨u1, l1c, l2c, ds, u2, m1, m2, rfl, h1, h2, h3, hne, hds, h4, h5, h6⟩ := h
  simp only [protLongAt]
  rw [if_pos ⟨trivial, trivial⟩,
    longSplit_concrete u1 l1c l2c u2 m1 m2 ds [] h1 h2 h3 hds hne h4 h5 h6]
  rfl

lemma protShortAt_pos {p : List Char} (h : ShortShape p) :
    protShortAt ('p' :: '.' :: p) = some p := by
  obtain ⟨u1, ds, u2, rfl, h1, hne, hds, h2⟩ := h
  simp only [protShortAt]
  rw [if_pos ⟨trivial, trivial⟩, shortSplit_concrete u1 u2 ds [] h1 hds hne h2]
  rfl

lemma protLong_searchO_short {p : List Char} (h : ShortShape p) :
    searchO protLongAt ('p' :: '.' :: p) = none := by
  have hpdots : ∀ c ∈ p, c ≠ '.' := protShape_ne_dot (Or.inr h)
  obtain ⟨u1, ds, u2, rfl, h1, hne, hds, h2⟩ := h
  have hls : longSplit (u1 :: (ds ++ [u2])) = none := by
    obtain ⟨d0, ds', rfl⟩ : ∃ d0 ds', ds = d0 :: ds' := by
      cases ds with
      | nil => exact absurd rfl hne
      | cons d0 ds' => exact ⟨d0, ds', rfl⟩
    exact longSplit_none_second_digit u1 d0 _ (hds d0 (by simp))
  have h0 : protLongAt ('p' :: '.' :: (u1 :: (ds ++ [u2]))) = none := by
    simp only [protLongAt]
    rw [if_pos ⟨trivial, trivial⟩, hls]
    rfl
  rw [searchO_cons_none' h0,
    searchO_cons_none' (protLongAt_not_bad _ _ _ (badPDot_ne_p (by decide)))]
  exact searchO_none_of_noPair _ badPDot rfl (fun _ => rfl) protLongAt_not_bad _
    (noPair_no_dot (fun x y hy => badPDot_ne_dot hy) hpdots)

lemma proteinOf_skip_after {l1 p : List Char}
    (hp : LongShape p ∨ ShortShape p)
    (hnp : NoPair badPDot l1)
    (hlparen : ∀ c ∈ l1 ++ ('p' :: '.' :: p), c ≠ '(') :
    proteinOf (l1 ++ ('p' :: '.' :: p)) = some p := by
  have hbdry : ∀ x, l1.getLast? = some x →
      ∀ y, ('p' :: '.' :: p).head? = some y → ¬ badPDot x y := by
    intro x hx y hy
    simp only [List.head?_cons, Option.some.injEq] at hy
    exact badPDot_ne_dot (by rw [← hy]; decide)
  have hskipLong : searchO protLongAt (l1 ++ ('p' :: '.' :: p))
      = searchO protLongAt ('p' :: '.' :: p) :=
    searchO_append_of_noPair _ badPDot _ _ protLongAt_not_bad hnp hbdry (by simp)
  have hskipShort : searchO protShortAt (l1 ++ ('p' :: '.' :: p))
      = searchO protShortAt ('p' :: '.' :: p) :=
    searchO_append_of_noPair _ badPDot _ _ protShortAt_not_bad hnp hbdry (by simp)
  have hP1 := searchO_longParen_none _ hlparen
  have hP3 := searchO_shortParen_none _ hlparen
  rcases hp with hl | hs
  · refine proteinOf_eq2 hP1 ?_
    rw [hskipLong]
    exact searchO_cons_some (protLongAt_pos hl)
  · have hP2 : searchO protLongAt (l1 ++ ('p' :: '.' :: p)) = none := by
      rw [hskipLong]
      exact protLong_searchO_short hs
    rw [proteinOf_eq4 hP1 hP2 hP3, hskipShort]
    exact searchO_cons_some (protShortAt_pos hs)

lemma normalizedOf_fix_pr (u : Char) (tl p : List Char)
    (hu : isUpperAZ u = true) (htl : ∀ c ∈ tl, isGeneTail c = true)
    (htlne : tl ≠ []) (hp : LongShape p ∨ ShortShape p) :
    normalizedOf ((u :: tl) ++ (' ' :: 'p' :: '.' :: p))
      = (u :: tl) ++ (' ' :: 'p' :: '.' :: p) := by
  have hpne : p ≠ [] := protShape_ne_nil hp
  have hpdots : ∀ c ∈ p, c ≠ '.' := protShape_ne_dot hp
  have htrim : TrimmedP ((u :: tl) ++ (' ' :: 'p' :: '.' :: p)) := by
    constructor
    · intro c hc
      simp only [List.cons_append, List.head?_cons, Option.some.injEq] at hc
      exact hc ▸ not_space_of_upper hu
    · intro c hc
      rw [getLast?_append_right (by simp),
        show (' ' :: 'p' :: '.' :: p) = [' ', 'p', '.'] ++ p by simp,
        getLast?_append_right hpne] at hc
      exact protShape_last hp c hc
  have hstrip := stripList_of_trimmed _ htrim
  have hgene : geneOf ((u :: tl) ++ (' ' :: 'p' :: '.' :: p))
      = some (u :: tl) := by
    rw [show (u :: tl) ++ (' ' :: 'p' :: '.' :: p)
        = u :: (tl ++ ' ' :: ('p' :: '.' :: p)) by simp]
    exact geneOf_concrete u ' ' tl _ hu htl htlne (by decide) (by decide)
  have hcd_none : searchO cdnaAt ((u :: tl) ++ (' ' :: 'p' :: '.' :: p)) = none := by
    refine searchO_none_of_noPair _ badCdna rfl (fun _ => rfl) cdnaAt_not_bad _ ?_
    refine noPair_append
      (noPair_no_dot (fun x y hy => badCdna_ne_dot hy) (gene_ne_dot hu htl))
      ?_ ?_
    · refine noPair_cons ?_ (noPair_cons ?_ (noPair_cons ?_ ?_))
      · intro y hy
        simp only [List.head?_cons, Option.some.injEq] at hy
        exact badCdna_ne_dot (by rw [← hy]; decide)
      · intro y hy
        rintro ⟨hor, -⟩
        rcases hor with h' | h' <;> exact absurd h' (by decide)
      · intro y hy
        exact badCdna_ne_dot (hpdots y (head?_mem' hy))
      · exact noPair_no_dot (fun x y hy => badCdna_ne_dot hy) hpdots
    · intro x hx y hy
      simp only [List.head?_cons, Option.some.injEq] at hy
      exact badCdna_ne_dot (by rw [← hy]; decide)
  have hlparen : ∀ c ∈ ((u :: tl) ++ [' ']) ++ ('p' :: '.' :: p), c ≠ '(' := by
    intro c hc
    rcases List.mem_append.mp hc with hm | hm
    · rcases List.mem_append.mp hm with hm' | hm'
      · exact gene_ne_lparen hu htl c hm'
      · rcases List.mem_cons.mp hm' with rfl | hm''
        · decide
        · simp at hm''
    · rcases List.mem_cons.mp hm with rfl | hm'
      · decide
      · rcases List.mem_cons.mp hm' with rfl | hm''
        · decide
        · exact protShape_ne_lparen hp c hm''
  have hnp1 : NoPair badPDot ((u :: tl) ++ [' ']) := by
    refine noPair_append
      (noPair_no_dot (fun x y hy => badPDot_ne_dot hy) (gene_ne_dot hu htl))
      noPair_singleton ?_
    intro x hx y hy
    simp only [List.head?_cons, Option.some.injEq] at hy
    exact badPDot_ne_dot (by rw [← hy]; decide)
  have hprot : proteinOf ((u :: tl) ++ (' ' :: 'p' :: '.' :: p)) = some p := by
    rw [show (u :: tl) ++ (' ' :: 'p' :: '.' :: p)
        = ((u :: tl) ++ [' ']) ++ ('p' :: '.' :: p) by simp]
    exact proteinOf_skip_after hp hnp1 hlparen
  rw [normalizedOf_gene_some (by rw [hstrip]; exact hgene), hstrip]
  simp only [cdPartOf, prPartOf]
  rw [hcd_none, hprot]
  simp

lemma normalizedOf_fix_cdpr (u : Char) (tl ds : List Char) (a b : Char)
    (p : List Char)
    (hu : isUpperAZ u = true) (htl : ∀ c ∈ tl, isGeneTail c = true)
    (htlne : tl ≠ []) (hds : ∀ c ∈ ds, isDigit09 c = true) (hdsne : ds ≠ [])
    (ha : isLetterAZ a = true) (hb : isLetterAZ b = true)
    (hp : LongShape p ∨ ShortShape p) :
    normalizedOf ((u :: tl) ++ (' ' :: 'c' :: '.' :: (ds ++ [a, '>', b]))
        ++ (' ' :: 'p' :: '.' :: p))
      = (u :: tl) ++ (' ' :: 'c' :: '.' :: (ds ++ [a, '>', b]))
        ++ (' ' :: 'p' :: '.' :: p) := by
  have hpne : p ≠ [] := protShape_ne_nil hp
  have hpdots : ∀ c ∈ p, c ≠ '.' := protShape_ne_dot hp
  have hdelems : ∀ c ∈ ds ++ [a, '>', b], c ≠ '.' :=
    cdna_group_ne_dot hds ha hb
  have htrim : TrimmedP ((u :: tl) ++ (' ' :: 'c' :: '.' :: (ds ++ [a, '>', b]))
      ++ (' ' :: 'p' :: '.' :: p)) := by
    constructor
    · intro c hc
      simp only [List.cons_append, List.append_assoc, List.head?_cons,
        Option.some.injEq] at hc
      exact hc ▸ not_space_of_upper hu
    · intro c hc
      rw [getLast?_append_right (by simp),
        show (' ' :: 'p' :: '.' :: p) = [' ', 'p', '.'] ++ p by simp,
        getLast?_append_right hpne] at hc
      exact protShape_last hp c hc
  have hstrip := stripList_of_trimmed _ htrim
  have hgene : geneOf ((u :: tl) ++ (' ' :: 'c' :: '.' :: (ds ++ [a, '>', b]))
      ++ (' ' :: 'p' :: '.' :: p)) = some (u :: tl) := by
    rw [show (u :: tl) ++ (' ' :: 'c' :: '.' :: (ds ++ [a, '>', b]))
          ++ (' ' :: 'p' :: '.' :: p)
        = u :: (tl ++ ' ' :: ('c' :: '.' :: (ds ++ [a, '>', b])
          ++ (' ' :: 'p' :: '.' :: p))) by simp]
    rw [show ('c' :: '.' :: (ds ++ [a, '>', b])) ++ (' ' :: 'p' :: '.' :: p)
        = 'c' :: '.' :: (ds ++ [a, '>', b] ++ (' ' :: 'p' :: '.' :: p)) by simp]
    exact geneOf_concrete u ' ' tl _ hu htl htlne (by decide) (by decide)
  have hnp_gene : NoPair badCdna (u :: tl) :=
    noPair_no_dot (fun x y hy => badCdna_ne_dot hy) (gene_ne_dot hu htl)
  have hl1 : NoPair badCdna ((u :: tl) ++ [' ']) := by
    refine noPair_append hnp_gene noPair_singleton ?_
    intro x hx y hy
    simp only [List.head?_cons, Option.some.injEq] at hy
    exact badCdna_ne_dot (by rw [← hy]; decide)
  have hcdout : searchO cdnaAt ((u :: tl)
      ++ (' ' :: 'c' :: '.' :: (ds ++ [a, '>', b])) ++ (' ' :: 'p' :: '.' :: p))
      = some (ds ++ [a, '>', b]) := by
    rw [show (u :: tl) ++ (' ' :: 'c' :: '.' :: (ds ++ [a, '>', b]))
          ++ (' ' :: 'p' :: '.' :: p)
        = ((u :: tl) ++ [' '])
          ++ ('c' :: '.' :: (ds ++ a :: '>' :: b :: (' ' :: 'p' :: '.' :: p)))
        by simp]
    rw [searchO_append_of_noPair _ badCdna _ _ cdnaAt_not_bad hl1 ?_ (by simp)]
    · exact searchO_cons_some
        (cdnaAt_concrete 'c' (Or.inl rfl) ds a b (' ' :: 'p' :: '.' :: p)
          hds hdsne ha hb)
    · intro x hx y hy
      simp only [List.head?_cons, Option.some.injEq] at hy
      exact badCdna_ne_dot (by rw [← hy]; decide)
  have hlparen : ∀ c ∈ ((u :: tl) ++ (' ' :: 'c' :: '.' :: (ds ++ [a, '>', b] ++ [' '])))
      ++ ('p' :: '.' :: p), c ≠ '(' := by
    intro c hc
    rcases List.mem_append.mp hc with hm | hm
    · rcases List.mem_append.mp hm with hm' | hm'
      · exact gene_ne_lparen hu htl c hm'
      · rcases List.mem_cons.mp hm' with rfl | hm''
        · decide
        · rcases List.mem_cons.mp hm'' with rfl | hm''
          · decide
          · rcases List.mem_cons.mp hm'' with rfl | hm''
            · decide
            · rcases List.mem_append.mp hm'' with hm3 | hm3
              · exact cdna_group_ne_lparen hds ha hb c hm3
              · rcases List.mem_cons.mp hm3 with rfl | hm4
                · decide
                · simp at hm4
    · rcases List.mem_cons.mp hm with rfl | hm'
      · decide
      · rcases List.mem_cons.mp hm' with rfl | hm''
        · decide
        · exact protShape_ne_lparen hp c hm''
  have hnp_skip : NoPair badPDot ((u :: tl)
      ++ (' ' :: 'c' :: '.' :: (ds ++ [a, '>', b] ++ [' ']))) := by
    refine noPair_append
      (noPair_no_dot (fun x y hy => badPDot_ne_dot hy) (gene_ne_dot hu htl))
      ?_ ?_
    · refine noPair_cons ?_ (noPair_cons ?_ (noPair_cons ?_ ?_))
      · intro y hy
        simp only [List.head?_cons, Option.some.injEq] at hy
        exact badPDot_ne_dot (by rw [← hy]; decide)
      · intro y hy
        exact badPDot_ne_p (by decide)
      · intro y hy
        refine badPDot_ne_dot ?_
        have hmem := head?_mem' hy
        rcases List.mem_append.mp hmem with hm | hm
        · exact hdelems y hm
        · rcases List.mem_cons.mp hm with rfl | hm'
          · decide
          · simp at hm'
      · refine noPair_no_dot (fun x y hy => badPDot_ne_dot hy) ?_
        intro c hc
        rcases List.mem_append.mp hc with hm | hm
        · exact hdelems c hm
        · rcases List.mem_cons.mp hm with rfl | hm'
          · decide
          · simp at hm'
    · intro x hx y hy
      simp only [List.head?_cons, Option.some.injEq] at hy
      exact badPDot_ne_dot (by rw [← hy]; decide)
  have hprot : proteinOf ((u :: tl) ++ (' ' :: 'c' :: '.' :: (ds ++ [a, '>', b]))
      ++ (' ' :: 'p' :: '.' :: p)) = some p := by
    rw [show (u :: tl) ++ (' ' :: 'c' :: '.' :: (ds ++ [a, '>', b]))
          ++ (' ' :: 'p' :: '.' :: p)
        = ((u :: tl) ++ (' ' :: 'c' :: '.' :: (ds ++ [a, '>', b] ++ [' '])))
          ++ ('p' :: '.' :: p) by simp]
    exact proteinOf_skip_after hp hnp_skip hlparen
  rw [normalizedOf_gene_some (by rw [hstrip]; exact hgene), hstrip]
  simp only [cdPartOf, prPartOf]
  rw [hcdout, hprot]

theorem normalizedOf_idem (raw : List Char) :
    normalizedOf (normalizedOf raw) = normalizedOf raw := by
  rcases hg : geneOf (stripList raw) with _ | g
  · rw [normalizedOf_gene_none hg]
    have h2 : geneOf (stripList (stripList raw)) = none := by
      rw [stripList_idem]
      exact hg
    rw [normalizedOf_gene_none h2, stripList_idem]
  · obtain ⟨u, tl, rfl, hu, htl, htlne⟩ := geneOf_shape hg
    rw [normalizedOf_gene_some hg]
    rcases hcd : searchO cdnaAt (stripList raw) with _ | d
    · have hc : cdPartOf (stripList raw) = [] := by
        simp only [cdPartOf]
        rw [hcd]
      rcases hpr : proteinOf (stripList raw) with _ | p
      · have hq : prPartOf (stripList raw) = [] := by
          simp only [prPartOf]
          rw [hpr]
        rw [hc, hq, List.append_nil, List.append_nil]
        exact normalizedOf_fix_geneonly u tl hu htl
      · have hq : prPartOf (stripList raw) = ' ' :: 'p' :: '.' :: p := by
          simp only [prPartOf]
          rw [hpr]
        rw [hc, hq, List.append_nil]
        exact normalizedOf_fix_pr u tl p hu htl htlne (proteinOf_shape hpr)
    · obtain ⟨t, -, hft⟩ := searchO_shape hcd
      obtain ⟨ds, a, b, rfl, hdsne, hdsall, ha, hb⟩ := cdnaAt_shape hft
      have hc : cdPartOf (stripList raw)
          = ' ' :: 'c' :: '.' :: (ds ++ [a, '>', b]) := by
        simp only [cdPartOf]
        rw [hcd]
      rcases hpr : proteinOf (stripList raw) with _ | p
      · have hq : prPartOf (stripList raw) = [] := by
          simp only [prPartOf]
          rw [hpr]
        rw [hc, hq, List.append_nil]
        exact normalizedOf_fix_cd u tl ds a b hu htl htlne hdsall hdsne ha hb
      · have hq : prPartOf (stripList raw) = ' ' :: 'p' :: '.' :: p := by
          simp only [prPartOf]
          rw [hpr]
        rw [hc, hq]
        exact normalizedOf_fix_cdpr u tl ds a b p hu htl htlne hdsall hdsne
          ha hb (proteinOf_shape hpr)

lemma normalize_variant_eq (x : List Char) :
    normalize_variant x
      = if (normalizedOf x).isEmpty then x else normalizedOf x := rfl

/-- C6: variant normalization is idempotent — for every input string,
`normalize_variant (normalize_variant x) = normalize_variant x`. -/
theorem normalize_variant_idempotent (x : List Char) :
    normalize_variant (normalize_variant x) = normalize_variant x := by
  cases h0 : (normalizedOf x).isEmpty
  · have hx : normalize_variant x = normalizedOf x := by
      rw [normalize_variant_eq, h0]
      simp
    rw [hx, normalize_variant_eq (normalizedOf x), normalizedOf_idem, h0]
    simp
  · have hx : normalize_variant x = x := by
      rw [normalize_variant_eq, h0]
      simp
    rw [hx]
    exact hx
